import Mathlib

/-!
Shallow embedding of the esp-worker library (src/src/esp_worker/worker.h and
src/src/esp_worker/worker.cpp): a FreeRTOS worker-task pool with spawn,
destroy, wait, finalize-once semantics and diagnostics aggregation.

Modelling conventions:
- Kernel task handles and control-block identities (the C++ `shared_ptr`
  addresses) are modelled as natural numbers; an `Option Nat` task handle is
  `nullptr` when `none`.
- FreeRTOS tick values (`TickType_t`, a 32-bit unsigned integer) are modelled
  as `Nat`; every operation the code performs on them (`>=`, guarded
  subtraction, multiplication truncated to `uint32_t`) coincides with the
  `Nat` operation, with the truncation written explicitly as `% 2 ^ 32`.
- Concurrency is modelled sequentially: each method of the pool runs atomically
  (the source serializes registry access under `_mutex` and serializes the
  finalize side effects behind one atomic compare-and-swap on `finalized`).
  Time-varying reads that a single call performs at different instants (the
  two `running` loads in `WorkerHandler::wait`, the semaphore take outcome,
  kernel allocation/creation success) are passed in as explicit oracle inputs.
- Calls out of the library are recorded as effect lists: `WorkerEvent`s given
  to the event observer, `WorkerError`s given to the error observer, and
  kernel task deletions as `(taskHandle, withCaps)` pairs (`vTaskDelete` /
  `vTaskDeleteWithCaps`; the `withCaps` variant is the one that releases an
  externally-backed stack).
- Platform compile-time facts (`sizeof(StackType_t)`, whether the target can
  create tasks with caps-allocated stacks, `portTICK_PERIOD_MS`) are fields of
  a `Platform` record so theorems can quantify over them.
-/

/-- `kMinStackSizeBytes` from worker.cpp: minimal accepted stack size. -/
def kMinStackSizeBytes : Nat := 1024

/-- FreeRTOS `tskNO_AFFINITY` (0x7FFFFFFF). -/
def tskNO_AFFINITY : Nat := 2147483647

/-- Compile-time platform facts consumed by worker.cpp. -/
structure Platform where
  /-- `sizeof(StackType_t)` of the FreeRTOS port (1 on ESP-IDF ports). -/
  stackTypeSize : Nat
  /-- The `ESPWORKER_CAN_USE_EXTERNAL_STACKS` preprocessor condition. -/
  canUseExternalStacks : Bool
  /-- `portTICK_PERIOD_MS`, the tick-to-millisecond factor. -/
  tickPeriodMs : Nat
deriving Repr, DecidableEq

/-- `hasExternalStackSupport` from worker.cpp: true when the build supports
caps-allocated task stacks and `heap_caps_get_total_size(MALLOC_CAP_SPIRAM)`
reports external memory present (`spiramPresent`). -/
def hasExternalStackSupport (pf : Platform) (spiramPresent : Bool) : Bool :=
  pf.canUseExternalStacks && spiramPresent

/-- `isValidStackConfig` from worker.cpp: at least `kMinStackSizeBytes` and a
multiple of `sizeof(StackType_t)`. -/
def isValidStackConfig (pf : Platform) (stackBytes : Nat) : Bool :=
  if stackBytes < kMinStackSizeBytes then false
  else stackBytes % pf.stackTypeSize == 0

/-- `WorkerError` from worker.h / worker.cpp (the implementation also uses
`ExternalStackUnsupported`, reported by `errorToString`). -/
inductive WorkerError where
  | None
  | NotInitialized
  | InvalidConfig
  | MaxWorkersReached
  | TaskCreateFailed
  | NoMemory
  | ExternalStackUnsupported
deriving Repr, DecidableEq

/-- `WorkerEvent` from worker.h. -/
inductive WorkerEvent where
  | Created
  | Started
  | Completed
  | Destroyed
deriving Repr, DecidableEq

/-- `WorkerConfig` from worker.h; the implementation file refers to the stack
size field as `stackSizeBytes`. -/
structure WorkerConfig where
  stackSizeBytes : Nat
  priority : Nat
  coreId : Nat
  name : String
  useExternalStack : Bool
deriving Repr, DecidableEq

/-- Default-constructed `WorkerConfig` (worker.h: stack size
`4096 * sizeof(StackType_t)`, priority 1, no core affinity, empty name,
internal stack). -/
def WorkerConfig.default (pf : Platform) : WorkerConfig :=
  { stackSizeBytes := 4096 * pf.stackTypeSize
    priority := 1
    coreId := tskNO_AFFINITY
    name := ""
    useExternalStack := false }

/-- `JobDiag` from worker.h. -/
structure JobDiag where
  config : WorkerConfig
  runtimeMs : Nat
  running : Bool
  destroyed : Bool
  taskHandle : Option Nat
deriving Repr, DecidableEq

/-- `WorkerDiag` from worker.h. -/
structure WorkerDiag where
  totalJobs : Nat
  runningJobs : Nat
  waitingJobs : Nat
  psramStackJobs : Nat
  averageRuntimeMs : Nat
  maxRuntimeMs : Nat
deriving Repr, DecidableEq

/-- `WorkerHandler::Impl` from worker.cpp: one worker's control block.
`id` is the block's heap identity (the `shared_ptr` address, used by the
pointer-equality erasures); `hasCompletion` records whether
`xSemaphoreCreateBinaryStatic` succeeded and `completionGiven` whether the
binary semaphore has been given. The `owner` back-pointer, callback and weak
self-reference carry no further state relevant to the verified claims. -/
structure Control where
  id : Nat
  config : WorkerConfig
  taskHandle : Option Nat
  startTick : Nat
  endTick : Nat
  hasCompletion : Bool
  completionGiven : Bool
  createdWithCaps : Bool
  running : Bool
  destroyed : Bool
  finalized : Bool
deriving Repr, DecidableEq

namespace ESPWorker

/-- `ESPWorker::Config` from worker.h (implementation field name
`stackSizeBytes`). -/
structure Config where
  maxWorkers : Nat
  stackSizeBytes : Nat
  priority : Nat
  coreId : Nat
  enableExternalStacks : Bool
deriving Repr, DecidableEq

/-- Default-constructed `ESPWorker::Config`. -/
def Config.default (pf : Platform) : Config :=
  { maxWorkers := 8
    stackSizeBytes := 4096 * pf.stackTypeSize
    priority := 1
    coreId := tskNO_AFFINITY
    enableExternalStacks := true }

end ESPWorker

/-- The pool manager's state: `_config`, `_initialized`, the live control
blocks (`controls`, keyed by identity) and `_activeControls` as the list of
registered identities (`registry`); `nameCounter` is `makeName`'s static
counter and `nextId` the allocator's freshness source. -/
structure PoolState where
  config : ESPWorker.Config
  initialized : Bool
  controls : List Control
  registry : List Nat
  nameCounter : Nat
  nextId : Nat
deriving Repr, DecidableEq

/-- Dereference a control-block identity (follow a `shared_ptr`). -/
def lookupControl (st : PoolState) (cid : Nat) : Option Control :=
  st.controls.find? (fun c => c.id == cid)

/-- Mutate the control block with identity `cid` in place. -/
def updateControl (st : PoolState) (cid : Nat) (f : Control → Control) : PoolState :=
  { st with controls := st.controls.map (fun c => if c.id == cid then f c else c) }

/-- Default-constructed `ESPWorker` object: default `_config`, not
initialized, empty registry. -/
def initialPoolState (pf : Platform) : PoolState :=
  { config := ESPWorker.Config.default pf
    initialized := false
    controls := []
    registry := []
    nameCounter := 0
    nextId := 0 }

namespace ESPWorker

/-- `ESPWorker::notifyError` from worker.cpp: the list of invocations of the
registered error observer caused by reporting `error` (none when `error` is
`None`, otherwise exactly one with that value, provided an observer is
registered). -/
def notifyError (error : WorkerError) : List WorkerError :=
  if error = WorkerError.None then [] else [error]

/-- `ESPWorker::finalizeWorker` from worker.cpp. Returns the new pool state,
the lifecycle events given to the event observer, and the kernel task
deletions / stack frees performed (the source function performs none: it only
flips flags, stamps the end tick, clears the task handle, gives the completion
semaphore and deregisters the block). -/
def finalizeWorker (st : PoolState) (cid : Nat) (wasDestroyed : Bool) (now : Nat) :
    PoolState × List WorkerEvent × List (Nat × Bool) :=
  match lookupControl st cid with
  | none => (st, [], [])
  | some c =>
    if c.finalized then (st, [], [])
    else
      let st1 := updateControl st cid (fun c =>
        { c with
          finalized := true
          destroyed := wasDestroyed
          running := false
          endTick := now
          taskHandle := none
          completionGiven := if c.hasCompletion then true else c.completionGiven })
      let st2 := { st1 with registry := st1.registry.filter (fun x => x != cid) }
      (st2, [if wasDestroyed then WorkerEvent.Destroyed else WorkerEvent.Completed], [])

/-- `ESPWorker::destroyWorker` from worker.cpp. `currentTask` is the caller's
`xTaskGetCurrentTaskHandle()`. Returns the new state, the boolean result, the
events emitted, the errors reported, and the kernel task deletions
performed. -/
def destroyWorker (st : PoolState) (cid : Nat) (currentTask : Nat) (now : Nat) :
    PoolState × Bool × List WorkerEvent × List WorkerError × List (Nat × Bool) :=
  match lookupControl st cid with
  | none => (st, false, [], [], [])
  | some c =>
    if !c.running then (st, true, [], [], [])
    else
      match c.taskHandle with
      | none =>
        let (st', evs, dels) := finalizeWorker st cid true now
        (st', true, evs, [], dels)
      | some t =>
        if currentTask = t then
          (st, false, [], notifyError WorkerError.InvalidConfig, [])
        else
          let (st', evs, dels) := finalizeWorker st cid true now
          (st', true, evs, [], (t, c.createdWithCaps) :: dels)

/-- `ESPWorker::runTask` from worker.cpp: runs the user callback (whose
effects lie outside the pool model) and finalizes with `destroyed = false`. -/
def runTask (st : PoolState) (cid : Nat) (now : Nat) :
    PoolState × List WorkerEvent × List (Nat × Bool) :=
  finalizeWorker st cid false now

/-- `ESPWorker::taskTrampoline` from worker.cpp, running on the worker's own
kernel task `selfTask`. Recovers the control block (`self.lock()`), emits
`Started`, runs the callback and finalizes via `runTask`, then deletes the
current task with `deleteCurrentTask(createdWithCaps)` — the `createdWithCaps`
flag captured at entry. A failed recovery only self-deletes the plain task. -/
def taskTrampoline (st : PoolState) (cid : Nat) (selfTask : Nat) (now : Nat) :
    PoolState × List WorkerEvent × List (Nat × Bool) :=
  match lookupControl st cid with
  | none => (st, [], [(selfTask, false)])
  | some c =>
    let (st', evs, dels) := runTask st cid now
    (st', WorkerEvent.Started :: evs, dels ++ [(selfTask, c.createdWithCaps)])

/-- `ESPWorker::cleanupFinished` from worker.cpp: prune registry entries whose
pointer is null or whose `running` flag is false. -/
def cleanupFinished (st : PoolState) : PoolState :=
  { st with registry := st.registry.filter (fun cid =>
      match lookupControl st cid with
      | none => false
      | some c => c.running) }

/-- `ESPWorker::activeWorkers` from worker.cpp. -/
def activeWorkers (st : PoolState) : Nat :=
  st.registry.length

/-- `ESPWorker::makeName` from worker.cpp: `"worker-<counter>"`. -/
def makeName (counter : Nat) : String :=
  "worker-" ++ toString counter

/-- `ESPWorker::init` from worker.cpp. -/
def init (st : PoolState) (config : Config) : PoolState :=
  { st with config := config, initialized := true }

/-- The run-time outcomes of the kernel calls a single spawn performs:
`heap_caps_malloc` for the control block, `xSemaphoreCreateBinaryStatic`,
`xTaskCreatePinnedToCore(WithCaps)` together with the created task's handle
and the spiram-presence probe, plus the tick at which the task was created. -/
structure SpawnOracle where
  allocOk : Bool
  semOk : Bool
  createOk : Bool
  taskId : Nat
  spiramPresent : Bool
  now : Nat
deriving Repr, DecidableEq

/-- Result of a spawn call: the final pool state, the `WorkerResult` error,
the handle (identity of the control block wrapped by the returned
`WorkerHandler`), the events and errors given to the observers, and the
control-block heap allocations/frees performed by the call (a control block
allocated on a failing path is released when the local `shared_ptr` — the
call's only remaining reference — drops at return). -/
structure SpawnOut where
  state : PoolState
  error : WorkerError
  handle : Option Nat
  events : List WorkerEvent
  errors : List WorkerError
  allocs : List Nat
  frees : List Nat
deriving Repr, DecidableEq

/-- `ESPWorker::spawnInternal` from worker.cpp. `cbNonEmpty` models whether
the passed `std::function` is callable. The config passed here is already
resolved by `spawn`. -/
def spawnInternal (pf : Platform) (st : PoolState) (cbNonEmpty : Bool)
    (config : WorkerConfig) (o : SpawnOracle) : SpawnOut :=
  if !cbNonEmpty then
    ⟨st, WorkerError.InvalidConfig, none, [], notifyError WorkerError.InvalidConfig, [], []⟩
  else if !isValidStackConfig pf config.stackSizeBytes then
    ⟨st, WorkerError.InvalidConfig, none, [], notifyError WorkerError.InvalidConfig, [], []⟩
  else if config.useExternalStack && !st.config.enableExternalStacks then
    ⟨st, WorkerError.ExternalStackUnsupported, none, [],
      notifyError WorkerError.ExternalStackUnsupported, [], []⟩
  else if config.useExternalStack && !hasExternalStackSupport pf o.spiramPresent then
    ⟨st, WorkerError.ExternalStackUnsupported, none, [],
      notifyError WorkerError.ExternalStackUnsupported, [], []⟩
  else if !o.allocOk then
    ⟨st, WorkerError.NoMemory, none, [], notifyError WorkerError.NoMemory, [], []⟩
  else
    let cid := st.nextId
    let stA := { st with nextId := st.nextId + 1 }
    if !o.semOk then
      ⟨stA, WorkerError.NoMemory, none, [], notifyError WorkerError.NoMemory, [cid], [cid]⟩
    else if st.config.maxWorkers ≤ stA.registry.length then
      ⟨stA, WorkerError.MaxWorkersReached, none, [],
        notifyError WorkerError.MaxWorkersReached, [cid], [cid]⟩
    else
      let c0 : Control :=
        { id := cid
          config := config
          taskHandle := none
          startTick := 0
          endTick := 0
          hasCompletion := true
          completionGiven := false
          createdWithCaps := false
          running := false
          destroyed := false
          finalized := false }
      let stB := { stA with
        registry := stA.registry ++ [cid]
        controls := stA.controls ++ [c0] }
      let createOk :=
        if config.useExternalStack then pf.canUseExternalStacks && o.createOk
        else o.createOk
      let withCaps := config.useExternalStack && pf.canUseExternalStacks && createOk
      if !createOk then
        let stC := { stB with
          registry := stB.registry.filter (fun x => x != cid)
          controls := stB.controls.filter (fun c => c.id != cid) }
        ⟨stC, WorkerError.TaskCreateFailed, none, [],
          notifyError WorkerError.TaskCreateFailed, [cid], [cid]⟩
      else
        let stC := updateControl stB cid (fun c =>
          { c with
            taskHandle := some o.taskId
            createdWithCaps := withCaps
            running := true
            startTick := o.now })
        ⟨stC, WorkerError.None, some cid, [WorkerEvent.Created], [], [cid], []⟩

/-- `ESPWorker::spawn` from worker.cpp: lazy default initialization, then
resolution of zero/empty config fields from the pool config, then
`spawnInternal`. -/
def spawn (pf : Platform) (st : PoolState) (cbNonEmpty : Bool)
    (config : WorkerConfig) (o : SpawnOracle) : SpawnOut :=
  let st := if !st.initialized then init st (Config.default pf) else st
  let effective := { config with
    stackSizeBytes :=
      if config.stackSizeBytes = 0 then st.config.stackSizeBytes else config.stackSizeBytes
    priority := if config.priority = 0 then st.config.priority else config.priority
    coreId := if config.coreId = tskNO_AFFINITY then st.config.coreId else config.coreId }
  if effective.name = "" then
    spawnInternal pf { st with nameCounter := st.nameCounter + 1 } cbNonEmpty
      { effective with name := makeName st.nameCounter } o
  else
    spawnInternal pf st cbNonEmpty effective o

/-- `ESPWorker::spawnExt` from worker.cpp: force `useExternalStack` then
delegate to `spawn`. -/
def spawnExt (pf : Platform) (st : PoolState) (cbNonEmpty : Bool)
    (config : WorkerConfig) (o : SpawnOracle) : SpawnOut :=
  spawn pf st cbNonEmpty { config with useExternalStack := true } o

/-- Accumulator of the single pass `ESPWorker::getDiag` makes over the
registry snapshot (`runtimeSum` is a `uint64_t` in the source, hence the
`% 2 ^ 64`). -/
structure DiagAcc where
  runningJobs : Nat
  psramStackJobs : Nat
  runtimeSum : Nat
  maxRuntimeMs : Nat
  haveRuntime : Bool
deriving Repr, DecidableEq

/-- One iteration of the loop body of `ESPWorker::getDiag` (worker.cpp):
null snapshot entries are skipped; the per-block runtime is counted only when
the end tick is not before the start tick, and the tick-to-millisecond
conversion is truncated to `uint32_t`. -/
def diagStep (pf : Platform) (now : Nat) (acc : DiagAcc) (oc : Option Control) : DiagAcc :=
  match oc with
  | none => acc
  | some c =>
    let acc :=
      if c.running then { acc with runningJobs := acc.runningJobs + 1 } else acc
    let acc :=
      if c.config.useExternalStack then
        { acc with psramStackJobs := acc.psramStackJobs + 1 }
      else acc
    let endTicks := if c.running then now else c.endTick
    if c.startTick ≤ endTicks then
      let runtimeMs := ((endTicks - c.startTick) * pf.tickPeriodMs) % 2 ^ 32
      { acc with
        runtimeSum := (acc.runtimeSum + runtimeMs) % 2 ^ 64
        maxRuntimeMs := max acc.maxRuntimeMs runtimeMs
        haveRuntime := true }
    else acc

/-- `ESPWorker::getDiag` from worker.cpp, applied to the registry snapshot
taken under `_mutex` (entries are the dereferenced `shared_ptr`s, `none` for
a null pointer) and to `now = xTaskGetTickCount()`. -/
def getDiag (pf : Platform) (snapshot : List (Option Control)) (now : Nat) : WorkerDiag :=
  let totalJobs := snapshot.length
  if snapshot.isEmpty then
    { totalJobs := totalJobs, runningJobs := 0, waitingJobs := 0, psramStackJobs := 0
      averageRuntimeMs := 0, maxRuntimeMs := 0 }
  else
    let acc := snapshot.foldl (diagStep pf now)
      { runningJobs := 0, psramStackJobs := 0, runtimeSum := 0
        maxRuntimeMs := 0, haveRuntime := false }
    { totalJobs := totalJobs
      runningJobs := acc.runningJobs
      waitingJobs := if acc.runningJobs < totalJobs then totalJobs - acc.runningJobs else 0
      psramStackJobs := acc.psramStackJobs
      averageRuntimeMs :=
        if 0 < totalJobs && acc.haveRuntime then (acc.runtimeSum / totalJobs) % 2 ^ 32
        else 0
      maxRuntimeMs := acc.maxRuntimeMs }

end ESPWorker

namespace WorkerHandler

/-- `WorkerHandler::valid` from worker.cpp. -/
def valid (control : Option Control) : Bool :=
  control.isSome

/-- `WorkerHandler::getDiag` from worker.cpp: zero-initialized `JobDiag` when
the handle has no control block; otherwise a snapshot of the block with the
elapsed runtime computed exactly as in the pool-wide loop. -/
def getDiag (pf : Platform) (control : Option Control) (now : Nat) : JobDiag :=
  match control with
  | none =>
    { config := WorkerConfig.default pf, runtimeMs := 0, running := false
      destroyed := false, taskHandle := none }
  | some c =>
    let endTicks := if c.running then now else c.endTick
    { config := c.config
      taskHandle := c.taskHandle
      running := c.running
      destroyed := c.destroyed
      runtimeMs :=
        if c.startTick ≤ endTicks then
          ((endTicks - c.startTick) * pf.tickPeriodMs) % 2 ^ 32
        else 0 }

/-- `WorkerHandler::wait` from worker.cpp. `takeOk` is the outcome of
`xSemaphoreTake(completion, ticks)` (reached only when the block is still
running at the first check) and `runningLater` the value of the `running`
re-load performed after a timed-out take (the flag may have been cleared by a
concurrent finalize in the interim). -/
def wait (control : Option Control) (takeOk : Bool) (runningLater : Bool) : Bool :=
  match control with
  | none => false
  | some c =>
    if !c.hasCompletion then false
    else if !c.running then true
    else if takeOk then true
    else !runningLater

/-- Whether `WorkerHandler::wait` reaches the blocking `xSemaphoreTake` call
(it returns beforehand when the handle is empty, the semaphore is missing, or
the block is already not running). -/
def waitBlocks (control : Option Control) : Bool :=
  match control with
  | none => false
  | some c => c.hasCompletion && c.running

/-- `WorkerHandler::destroy` from worker.cpp: fail on an empty handle or a
gone owner, otherwise delegate to `ESPWorker::destroyWorker`. -/
def destroy (st : PoolState) (control : Option Nat) (ownerPresent : Bool)
    (currentTask : Nat) (now : Nat) :
    PoolState × Bool × List WorkerEvent × List WorkerError × List (Nat × Bool) :=
  match control with
  | none => (st, false, [], [], [])
  | some cid =>
    if !ownerPresent then (st, false, [], [], [])
    else ESPWorker.destroyWorker st cid currentTask now

end WorkerHandler

/-- Per-block runtime as the specification words it: `(now if running else the
end tick) − start tick` converted to milliseconds (as a 32-bit value), counted
only when the end is not before the start. -/
def countedRuntime (p : Nat) (now : Nat) (c : Control) : Option Nat :=
  let e := if c.running then now else c.endTick
  if c.startTick ≤ e then some (((e - c.startTick) * p) % 2 ^ 32) else none

/-- Pool diagnostics as claim C8 words them: totals, counts, waiting as the
difference, average as sum of counted runtimes over total, max as the maximum
counted runtime. Stated over the same registry snapshot `getDiag` consumes. -/
def specPoolDiag (pf : Platform) (snapshot : List (Option Control)) (now : Nat) : WorkerDiag :=
  let blocks := snapshot.filterMap id
  let total := snapshot.length
  let runningJobs := (blocks.filter (fun c => c.running)).length
  let counted := blocks.filterMap (countedRuntime pf.tickPeriodMs now)
  { totalJobs := total
    runningJobs := runningJobs
    waitingJobs := total - runningJobs
    psramStackJobs := (blocks.filter (fun c => c.config.useExternalStack)).length
    averageRuntimeMs := counted.sum / total
    maxRuntimeMs := counted.foldr max 0 }

/-- Iterated finalize attempts on one control block (used to express the
at-most-once property of claim C1 under an arbitrary number of racing
finalize calls, each with its own `wasDestroyed` flag and tick). -/
def finalizeAttempts (st : PoolState) (cid : Nat) :
    List (Bool × Nat) → PoolState × List WorkerEvent
  | [] => (st, [])
  | (d, t) :: rest =>
    let out := ESPWorker.finalizeWorker st cid d t
    let out' := finalizeAttempts out.1 cid rest
    (out'.1, out.2.1 ++ out'.2)

/-- Iterated spawning with an always-succeeding kernel (used to express the
capacity part of claim C5: up to `maxWorkers` spawns succeed). Each spawn uses
a fresh task id and the given already-resolved config. -/
def spawnRepeat (pf : Platform) (config : WorkerConfig) :
    Nat → PoolState → PoolState × List WorkerError
  | 0, st => (st, [])
  | n + 1, st =>
    let out := ESPWorker.spawnInternal pf st true config
      { allocOk := true, semOk := true, createOk := true
        taskId := st.nextId, spiramPresent := true, now := 0 }
    let rest := spawnRepeat pf config n out.state
    (rest.1, out.error :: rest.2)

/-- Well-formedness of a pool state: registered identities are allocated
(below `nextId`), unique, and dereferenceable; control identities are
allocated and unique. Every state reachable from `initialPoolState` through
the embedded operations satisfies it. -/
def PoolState.WF (st : PoolState) : Prop :=
  (∀ cid ∈ st.registry, cid < st.nextId) ∧
  st.registry.Nodup ∧
  (∀ c ∈ st.controls, c.id < st.nextId) ∧
  (st.controls.map (fun c => c.id)).Nodup ∧
  (∀ cid ∈ st.registry, (lookupControl st cid).isSome)

/-- Registry invariant of the sequential model: every registered block is
running and not yet finalized (finalize removes a block from the registry in
the same atomic step that clears `running`). -/
def PoolState.RI (st : PoolState) : Prop :=
  ∀ cid ∈ st.registry, ∃ c, lookupControl st cid = some c ∧
    c.running = true ∧ c.finalized = false

/-! ### List-level helper lemmas -/

/-- A guarded in-place update (`updateControl`'s map function) commutes with
`find?` by identity when the update preserves identities. -/
theorem find?_map_guard (l : List Control) (cid x : Nat) (f : Control → Control)
    (hf : ∀ c, (f c).id = c.id) :
    (l.map (fun c => if c.id == cid then f c else c)).find? (fun c => c.id == x)
      = (l.find? (fun c => c.id == x)).map (fun c => if c.id == cid then f c else c) := by
  have hpg : ((fun c => c.id == x) ∘ (fun c => if c.id == cid then f c else c))
      = fun c => c.id == x := by
    funext c
    by_cases h : c.id = cid
    · simp [h, hf]
    · simp [h]
  rw [List.find?_map, hpg]

/-- Looking up any identity after an identity-preserving `updateControl`. -/
theorem lookupControl_update (st : PoolState) (cid x : Nat) (f : Control → Control)
    (hf : ∀ c, (f c).id = c.id) :
    lookupControl (updateControl st cid f) x
      = (lookupControl st x).map (fun c => if c.id == cid then f c else c) := by
  unfold lookupControl updateControl
  exact find?_map_guard st.controls cid x f hf

/-- `lookupControl` ignores everything but `controls`. -/
theorem lookupControl_registry (st : PoolState) (r : List Nat) (x : Nat) :
    lookupControl { st with registry := r } x = lookupControl st x := rfl

/-- A successful lookup returns a control carrying the looked-up identity. -/
theorem lookupControl_id {st : PoolState} {cid : Nat} {c : Control}
    (h : lookupControl st cid = some c) : c.id = cid := by
  have := List.find?_some h
  simpa using this

/-- An identity-preserving guarded update leaves a list without the target
identity unchanged. -/
theorem map_guard_of_fresh (l : List Control) (cid : Nat) (f : Control → Control)
    (h : ∀ c ∈ l, c.id ≠ cid) :
    l.map (fun c => if c.id == cid then f c else c) = l := by
  have : ∀ c ∈ l, (fun c => if c.id == cid then f c else c) c = id c := by
    intro c hc
    simp [h c hc]
  rw [List.map_congr_left this, List.map_id]

/-- Filtering away an identity absent from the list is the identity. -/
theorem filter_ne_of_not_mem (l : List Nat) (cid : Nat) (h : cid ∉ l) :
    l.filter (fun x => x != cid) = l := by
  apply List.filter_eq_self.mpr
  intro a ha
  simp only [bne_iff_ne, ne_eq]
  exact fun he => h (he ▸ ha)

/-- Filtering controls by a fresh identity is the identity. -/
theorem filter_controls_ne_of_fresh (l : List Control) (cid : Nat)
    (h : ∀ c ∈ l, c.id ≠ cid) :
    l.filter (fun c => c.id != cid) = l := by
  apply List.filter_eq_self.mpr
  intro c hc
  simpa using h c hc

/-- A sum of list elements each bounded by `n` is bounded by `length * n`. -/
theorem sum_le_length_mul (l : List Nat) (n : Nat) (h : ∀ x ∈ l, x ≤ n) :
    l.sum ≤ l.length * n := by
  induction l with
  | nil => simp
  | cons a l ih =>
    have ha := h a (List.mem_cons_self a l)
    have hl := ih (fun x hx => h x (List.mem_cons_of_mem a hx))
    simp only [List.sum_cons, List.length_cons]
    calc a + l.sum ≤ n + l.length * n := Nat.add_le_add ha hl
      _ = (l.length + 1) * n := by ring

/-! ### Finalize lemmas -/

/-- The single winning finalize transition applied to a control block (the
update function inside `ESPWorker.finalizeWorker`). -/
def finalizedControl (c : Control) (d : Bool) (now : Nat) : Control :=
  { c with
    finalized := true
    destroyed := d
    running := false
    endTick := now
    taskHandle := none
    completionGiven := if c.hasCompletion then true else c.completionGiven }

/-- Finalizing through a null control reference does nothing. -/
theorem finalizeWorker_none (st : PoolState) (cid : Nat) (d : Bool) (now : Nat)
    (h : lookupControl st cid = none) :
    ESPWorker.finalizeWorker st cid d now = (st, [], []) := by
  unfold ESPWorker.finalizeWorker
  rw [h]

/-- Finalizing an already-finalized block is a complete no-op with no event:
the compare-and-swap on `finalized` fails. -/
theorem finalizeWorker_already (st : PoolState) (cid : Nat) (d : Bool) (now : Nat)
    (c : Control) (h : lookupControl st cid = some c) (hf : c.finalized = true) :
    ESPWorker.finalizeWorker st cid d now = (st, [], []) := by
  unfold ESPWorker.finalizeWorker
  rw [h]
  simp [hf]

/-- The winning finalize transition: flags, end tick, task-handle clear,
semaphore give, deregistration and exactly one event. -/
theorem finalizeWorker_winning (st : PoolState) (cid : Nat) (d : Bool) (now : Nat)
    (c : Control) (h : lookupControl st cid = some c) (hf : c.finalized = false) :
    ESPWorker.finalizeWorker st cid d now =
      ({ updateControl st cid (fun c => finalizedControl c d now) with
          registry := st.registry.filter (fun x => x != cid) },
        [if d then WorkerEvent.Destroyed else WorkerEvent.Completed], []) := by
  unfold ESPWorker.finalizeWorker
  rw [h]
  simp only [hf, Bool.false_eq_true, if_false]
  rfl

/-- After a winning finalize, the block reads back fully finalized. -/
theorem finalizeWorker_lookup_self (st : PoolState) (cid : Nat) (d : Bool) (now : Nat)
    (c : Control) (h : lookupControl st cid = some c) (hf : c.finalized = false) :
    lookupControl (ESPWorker.finalizeWorker st cid d now).1 cid
      = some (finalizedControl c d now) := by
  rw [finalizeWorker_winning st cid d now c h hf]
  have hid := lookupControl_id h
  have : lookupControl
      ({ updateControl st cid (fun c => finalizedControl c d now) with
        registry := st.registry.filter (fun x => x != cid) }) cid
      = lookupControl (updateControl st cid (fun c => finalizedControl c d now)) cid := rfl
  rw [this, lookupControl_update st cid cid (fun c => finalizedControl c d now) (fun c => rfl), h]
  simp [hid]

/-- Finalizing one block leaves every other block unchanged. -/
theorem finalizeWorker_lookup_other (st : PoolState) (cid : Nat) (d : Bool) (now : Nat)
    (x : Nat) (hx : x ≠ cid) :
    lookupControl (ESPWorker.finalizeWorker st cid d now).1 x = lookupControl st x := by
  cases hl : lookupControl st cid with
  | none => rw [finalizeWorker_none st cid d now hl]
  | some c =>
    by_cases hf : c.finalized = true
    · rw [finalizeWorker_already st cid d now c hl hf]
    · rw [finalizeWorker_winning st cid d now c hl (Bool.not_eq_true _ ▸ hf)]
      have : lookupControl
          ({ updateControl st cid (fun c => finalizedControl c d now) with
            registry := st.registry.filter (fun x => x != cid) }) x
          = lookupControl (updateControl st cid (fun c => finalizedControl c d now)) x := rfl
      rw [this, lookupControl_update st cid x (fun c => finalizedControl c d now) (fun c => rfl)]
      cases hlx : lookupControl st x with
      | none => rfl
      | some cx =>
        have hidx := lookupControl_id hlx
        simp [hidx, hx]

/-- Once a block is finalized, any further sequence of finalize attempts
leaves the state untouched and emits nothing. -/
theorem finalizeAttempts_of_finalized (st : PoolState) (cid : Nat) (c : Control)
    (h : lookupControl st cid = some c) (hf : c.finalized = true) :
    ∀ attempts, finalizeAttempts st cid attempts = (st, []) := by
  intro attempts
  induction attempts with
  | nil => rfl
  | cons a rest ih =>
    unfold finalizeAttempts
    rw [finalizeWorker_already st cid a.1 a.2 c h hf]
    simpa using ih

/-! ### Claim C1 -/

/-- Example control block: a running, unfinalized worker on kernel task 7
(used as concrete input by witnesses). -/
def exControl : Control :=
  { id := 0
    config := { stackSizeBytes := 2048, priority := 1, coreId := 0, name := "w"
                useExternalStack := false }
    taskHandle := some 7
    startTick := 3
    endTick := 0
    hasCompletion := true
    completionGiven := false
    createdWithCaps := false
    running := true
    destroyed := false
    finalized := false }

/-- Example pool state holding `exControl` as its only registered worker. -/
def exState : PoolState :=
  { config := { maxWorkers := 8, stackSizeBytes := 16384, priority := 1
                coreId := tskNO_AFFINITY, enableExternalStacks := true }
    initialized := true
    controls := [exControl]
    registry := [0]
    nameCounter := 1
    nextId := 1 }

/-- Claim C1: per control block, `finalized` transitions false→true at most
once, and all finalize side effects (recording `destroyed`, clearing
`running`, stamping the end tick, clearing the task reference, giving the
completion signal, removing the block from the registry, emitting the single
Completed-or-Destroyed event) happen only under that winning transition; an
already-finalized block makes every further finalize attempt a complete
no-op with no event, so racing finalize attempts (natural completion against
a concurrent `destroy()`) emit exactly one event, and `destroy()` on an
already-finalized worker still returns true. -/
theorem c1_finalized_at_most_once
    (st : PoolState) (cid : Nat) (c : Control) (d d2 : Bool) (now now2 ct : Nat)
    (h : lookupControl st cid = some c) :
    (c.finalized = true →
      ESPWorker.finalizeWorker st cid d now = (st, [], [])) ∧
    (c.finalized = false →
      lookupControl (ESPWorker.finalizeWorker st cid d now).1 cid
        = some (finalizedControl c d now) ∧
      (ESPWorker.finalizeWorker st cid d now).1.registry
        = st.registry.filter (fun x => x != cid) ∧
      (ESPWorker.finalizeWorker st cid d now).2.1
        = [if d then WorkerEvent.Destroyed else WorkerEvent.Completed] ∧
      ESPWorker.finalizeWorker (ESPWorker.finalizeWorker st cid d now).1 cid d2 now2
        = ((ESPWorker.finalizeWorker st cid d now).1, [], []) ∧
      ESPWorker.destroyWorker (ESPWorker.finalizeWorker st cid d now).1 cid ct now2
        = ((ESPWorker.finalizeWorker st cid d now).1, true, [], [], [])) ∧
    (c.finalized = false → ∀ attempts : List (Bool × Nat), attempts ≠ [] →
      (finalizeAttempts st cid attempts).2.length = 1) := by
  refine ⟨fun hf => finalizeWorker_already st cid d now c h hf, fun hf => ?_, fun hf => ?_⟩
  · have hself := finalizeWorker_lookup_self st cid d now c h hf
    refine ⟨hself, ?_, ?_, ?_, ?_⟩
    · rw [finalizeWorker_winning st cid d now c h hf]
    · rw [finalizeWorker_winning st cid d now c h hf]
    · exact finalizeWorker_already _ cid d2 now2 _ hself rfl
    · unfold ESPWorker.destroyWorker
      rw [hself]
      simp [finalizedControl]
  · intro attempts hne
    cases attempts with
    | nil => exact absurd rfl hne
    | cons a rest =>
      unfold finalizeAttempts
      have hself := finalizeWorker_lookup_self st cid a.1 a.2 c h hf
      have hrest := finalizeAttempts_of_finalized
        (ESPWorker.finalizeWorker st cid a.1 a.2).1 cid
        (finalizedControl c a.1 a.2) hself rfl rest
      rw [finalizeWorker_winning st cid a.1 a.2 c h hf] at hself hrest ⊢
      simp [hrest]

/-- Witness for C1 at a concrete running worker. -/
theorem c1_finalized_at_most_once_witness :
    (lookupControl (ESPWorker.finalizeWorker exState 0 true 9).1 0
        = some (finalizedControl exControl true 9) ∧
      (ESPWorker.finalizeWorker exState 0 true 9).1.registry
        = List.filter (fun x => x != 0) exState.registry ∧
      (ESPWorker.finalizeWorker exState 0 true 9).2.1
        = [if true then WorkerEvent.Destroyed else WorkerEvent.Completed] ∧
      ESPWorker.finalizeWorker (ESPWorker.finalizeWorker exState 0 true 9).1 0 false 11
        = ((ESPWorker.finalizeWorker exState 0 true 9).1, [], []) ∧
      ESPWorker.destroyWorker (ESPWorker.finalizeWorker exState 0 true 9).1 0 5 11
        = ((ESPWorker.finalizeWorker exState 0 true 9).1, true, [], [], [])) ∧
    (finalizeAttempts exState 0 [(true, 9), (false, 11)]).2.length = 1 := by
  have T := c1_finalized_at_most_once exState 0 exControl true false 9 11 5 (by rfl)
  exact ⟨T.2.1 rfl, T.2.2 rfl [(true, 9), (false, 11)] (by decide)⟩

/-! ### Claim C4 -/

/-- Claim C4: `destroy()` invoked from the worker's own task (caller task
handle equals the block's task handle) reports `InvalidConfig`, returns false
and leaves the whole pool state — in particular the block's `running` and
`finalized` flags — unchanged; `destroy()` from any other thread on a running
worker with a live task reference deletes that kernel task, finalizes with
`wasDestroyed = true` (emitting `Destroyed`), and returns true. -/
theorem c4_self_destroy_rejected
    (st : PoolState) (cid t ct now : Nat) (c : Control)
    (h : lookupControl st cid = some c) (hrun : c.running = true)
    (hth : c.taskHandle = some t) (hfin : c.finalized = false) :
    (ct = t →
      ESPWorker.destroyWorker st cid ct now
        = (st, false, [], [WorkerError.InvalidConfig], []) ∧
      lookupControl st cid = some c ∧ c.running = true ∧ c.finalized = false) ∧
    (ct ≠ t →
      ESPWorker.destroyWorker st cid ct now
        = ({ updateControl st cid (fun c => finalizedControl c true now) with
              registry := st.registry.filter (fun x => x != cid) },
            true, [WorkerEvent.Destroyed], [], [(t, c.createdWithCaps)]) ∧
      lookupControl (ESPWorker.destroyWorker st cid ct now).1 cid
        = some (finalizedControl c true now)) := by
  constructor
  · intro he
    refine ⟨?_, h, hrun, hfin⟩
    unfold ESPWorker.destroyWorker
    rw [h]
    simp [hrun, hth, he, ESPWorker.notifyError]
  · intro hne
    have heq : ESPWorker.destroyWorker st cid ct now
        = ({ updateControl st cid (fun c => finalizedControl c true now) with
              registry := st.registry.filter (fun x => x != cid) },
            true, [WorkerEvent.Destroyed], [], [(t, c.createdWithCaps)]) := by
      unfold ESPWorker.destroyWorker
      rw [h]
      simp [hrun, hth, hne, finalizeWorker_winning st cid true now c h hfin]
    refine ⟨heq, ?_⟩
    rw [heq]
    have hid := lookupControl_id h
    have : lookupControl
        ({ updateControl st cid (fun c => finalizedControl c true now) with
          registry := st.registry.filter (fun x => x != cid) }) cid
        = lookupControl (updateControl st cid (fun c => finalizedControl c true now)) cid := rfl
    rw [this, lookupControl_update st cid cid (fun c => finalizedControl c true now)
      (fun c => rfl), h]
    simp [hid]

/-- Witness for C4: self-destroy from task 7 fails, destroy from task 5
succeeds, at the concrete running worker. -/
theorem c4_self_destroy_rejected_witness :
    (ESPWorker.destroyWorker exState 0 7 9
        = (exState, false, [], [WorkerError.InvalidConfig], []) ∧
      lookupControl exState 0 = some exControl ∧ exControl.running = true ∧
      exControl.finalized = false) ∧
    (ESPWorker.destroyWorker exState 0 5 9
        = ({ updateControl exState 0 (fun c => finalizedControl c true 9) with
              registry := exState.registry.filter (fun x => x != 0) },
            true, [WorkerEvent.Destroyed], [], [(7, exControl.createdWithCaps)]) ∧
      lookupControl (ESPWorker.destroyWorker exState 0 5 9).1 0
        = some (finalizedControl exControl true 9)) := by
  exact ⟨(c4_self_destroy_rejected exState 0 7 7 9 exControl rfl rfl rfl rfl).1 rfl,
    (c4_self_destroy_rejected exState 0 7 5 9 exControl rfl rfl rfl rfl).2 (by decide)⟩

/-! ### Spawn lemmas -/

/-- The control block as it stands right after a fully successful
`spawnInternal`: registered, running, unfinalized, with its completion
semaphore created and its task handle recorded. -/
def spawnedControl (config : WorkerConfig) (cid : Nat) (withCaps : Bool)
    (taskId now : Nat) : Control :=
  { id := cid
    config := config
    taskHandle := some taskId
    startTick := now
    endTick := 0
    hasCompletion := true
    completionGiven := false
    createdWithCaps := withCaps
    running := true
    destroyed := false
    finalized := false }

/-- Full characterization of a successful `spawnInternal`. -/
theorem spawnInternal_success_eq (pf : Platform) (st : PoolState)
    (config : WorkerConfig) (o : ESPWorker.SpawnOracle)
    (hv : isValidStackConfig pf config.stackSizeBytes = true)
    (he1 : (config.useExternalStack && !st.config.enableExternalStacks) = false)
    (he2 : (config.useExternalStack && !hasExternalStackSupport pf o.spiramPresent) = false)
    (ha : o.allocOk = true) (hs : o.semOk = true)
    (hroom : st.registry.length < st.config.maxWorkers)
    (hcr : (if config.useExternalStack then pf.canUseExternalStacks && o.createOk
            else o.createOk) = true)
    (hfresh : ∀ c ∈ st.controls, c.id ≠ st.nextId) :
    ESPWorker.spawnInternal pf st true config o =
      { state := { st with
          nextId := st.nextId + 1
          registry := st.registry ++ [st.nextId]
          controls := st.controls ++
            [spawnedControl config st.nextId
              (config.useExternalStack && pf.canUseExternalStacks) o.taskId o.now] }
        error := WorkerError.None
        handle := some st.nextId
        events := [WorkerEvent.Created]
        errors := []
        allocs := [st.nextId]
        frees := [] } := by
  have hnth : ¬ (st.config.maxWorkers ≤ st.registry.length) := Nat.not_le.mpr hroom
  have hwc : (config.useExternalStack && pf.canUseExternalStacks &&
      (if config.useExternalStack then pf.canUseExternalStacks && o.createOk
        else o.createOk)) = (config.useExternalStack && pf.canUseExternalStacks) := by
    rw [hcr, Bool.and_true]
  unfold ESPWorker.spawnInternal
  simp only [hv, he1, he2, ha, hs, hcr, hnth, Bool.not_true, Bool.false_eq_true, if_false,
    ite_false, ite_true, Bool.not_false, if_true, updateControl, List.map_append]
  simp only [ESPWorker.SpawnOut.mk.injEq, and_true, true_and]
  simp only [PoolState.mk.injEq, true_and, and_true]
  rw [map_guard_of_fresh st.controls st.nextId _ hfresh]
  simp [spawnedControl]

/-- Every failing `spawnInternal` rolls back completely: registry and live
control blocks unchanged, no handle, every allocated buffer freed, exactly
one error notification carrying the returned error, and no event. -/
theorem spawnInternal_rollback (pf : Platform) (st : PoolState) (cb : Bool)
    (config : WorkerConfig) (o : ESPWorker.SpawnOracle)
    (hreg : st.nextId ∉ st.registry)
    (hfresh : ∀ c ∈ st.controls, c.id ≠ st.nextId)
    (herr : (ESPWorker.spawnInternal pf st cb config o).error ≠ WorkerError.None) :
    (ESPWorker.spawnInternal pf st cb config o).state.registry = st.registry ∧
    (ESPWorker.spawnInternal pf st cb config o).state.controls = st.controls ∧
    (ESPWorker.spawnInternal pf st cb config o).handle = none ∧
    (ESPWorker.spawnInternal pf st cb config o).frees
      = (ESPWorker.spawnInternal pf st cb config o).allocs ∧
    (ESPWorker.spawnInternal pf st cb config o).errors
      = [(ESPWorker.spawnInternal pf st cb config o).error] ∧
    (ESPWorker.spawnInternal pf st cb config o).events = [] := by
  have hfilr : (st.registry ++ [st.nextId]).filter (fun x => x != st.nextId)
      = st.registry := by
    rw [List.filter_append, filter_ne_of_not_mem st.registry st.nextId hreg]
    simp
  have hfilc : ∀ c0 : Control, c0.id = st.nextId →
      (st.controls ++ [c0]).filter (fun c => c.id != st.nextId) = st.controls := by
    intro c0 hc0
    rw [List.filter_append, filter_controls_ne_of_fresh st.controls st.nextId hfresh]
    simp [hc0]
  cases cb with
  | false => simp [ESPWorker.spawnInternal, ESPWorker.notifyError]
  | true =>
  cases hv : isValidStackConfig pf config.stackSizeBytes with
  | false => simp [ESPWorker.spawnInternal, hv, ESPWorker.notifyError]
  | true =>
  cases he1 : config.useExternalStack && !st.config.enableExternalStacks with
  | true => simp [ESPWorker.spawnInternal, hv, he1, ESPWorker.notifyError]
  | false =>
  cases he2 : config.useExternalStack && !hasExternalStackSupport pf o.spiramPresent with
  | true => simp [ESPWorker.spawnInternal, hv, he1, he2, ESPWorker.notifyError]
  | false =>
  cases ha : o.allocOk with
  | false => simp [ESPWorker.spawnInternal, hv, he1, he2, ha, ESPWorker.notifyError]
  | true =>
  cases hs : o.semOk with
  | false => simp [ESPWorker.spawnInternal, hv, he1, he2, ha, hs, ESPWorker.notifyError]
  | true =>
  by_cases hmax : st.config.maxWorkers ≤ st.registry.length
  · simp [ESPWorker.spawnInternal, hv, he1, he2, ha, hs, hmax, ESPWorker.notifyError]
  cases hcr : (if config.useExternalStack then pf.canUseExternalStacks && o.createOk
      else o.createOk) with
  | true =>
    exfalso
    apply herr
    rw [spawnInternal_success_eq pf st config o hv he1 he2 ha hs
      (Nat.lt_of_not_le hmax) hcr hfresh]
  | false =>
    have : (ESPWorker.spawnInternal pf st true config o)
        = ⟨{ st with
              nextId := st.nextId + 1
              registry := st.registry
              controls := st.controls },
            WorkerError.TaskCreateFailed, none, [],
            ESPWorker.notifyError WorkerError.TaskCreateFailed,
            [st.nextId], [st.nextId]⟩ := by
      unfold ESPWorker.spawnInternal
      simp only [hv, he1, he2, ha, hs, hmax, hcr, Bool.not_true, Bool.not_false,
        Bool.false_eq_true, if_false, if_true, ite_true, ite_false]
      simp only [ESPWorker.SpawnOut.mk.injEq, and_true, true_and]
      simp only [PoolState.mk.injEq, true_and, and_true]
      exact ⟨hfilc _ rfl, hfilr⟩
    rw [this]
    simp [ESPWorker.notifyError]

/-- In a well-formed state the next identity is not yet registered. -/
theorem wf_nextId_not_mem {st : PoolState} (h : st.WF) : st.nextId ∉ st.registry := by
  intro hmem
  exact absurd (h.1 st.nextId hmem) (Nat.lt_irrefl st.nextId)

/-- In a well-formed state the next identity names no existing block. -/
theorem wf_fresh_controls {st : PoolState} (h : st.WF) :
    ∀ c ∈ st.controls, c.id ≠ st.nextId := by
  intro c hc he
  exact absurd (he ▸ h.2.2.1 c hc) (Nat.lt_irrefl st.nextId)

/-- Appending a fresh control block does not disturb existing lookups and
makes the fresh identity resolvable. -/
theorem lookupControl_append (st : PoolState) (c1 : Control) (x : Nat) :
    lookupControl { st with controls := st.controls ++ [c1] } x
      = ((lookupControl st x).or ([c1].find? (fun c => c.id == x))) := by
  unfold lookupControl
  exact List.find?_append

/-- The successful-spawn state transformation preserves well-formedness. -/
theorem spawn_state_WF (st : PoolState) (c1 : Control) (hc1 : c1.id = st.nextId)
    (h : st.WF) :
    PoolState.WF { st with
      nextId := st.nextId + 1
      registry := st.registry ++ [st.nextId]
      controls := st.controls ++ [c1] } := by
  obtain ⟨hbound, hnodup, hcbound, hcnodup, hlook⟩ := h
  refine ⟨?_, ?_, ?_, ?_, ?_⟩
  · intro cid hcid
    rcases List.mem_append.mp hcid with hold | hnew
    · exact Nat.lt_succ_of_lt (hbound cid hold)
    · simp only [List.mem_singleton] at hnew
      exact hnew ▸ Nat.lt_succ_self _
  · rw [List.nodup_append]
    refine ⟨hnodup, List.nodup_singleton _, ?_⟩
    intro a ha hb
    simp only [List.mem_singleton] at hb
    exact absurd (hb ▸ hbound a ha) (Nat.lt_irrefl _)
  · intro c hc
    rcases List.mem_append.mp hc with hold | hnew
    · exact Nat.lt_succ_of_lt (hcbound c hold)
    · simp only [List.mem_singleton] at hnew
      rw [hnew, hc1]
      exact Nat.lt_succ_self _
  · rw [List.map_append, List.nodup_append]
    refine ⟨hcnodup, by simp, ?_⟩
    intro a ha hb
    simp only [List.map_cons, List.map_nil, List.mem_singleton] at hb
    rcases List.mem_map.mp ha with ⟨c, hc, hca⟩
    rw [hb, hc1] at hca
    exact absurd (hca ▸ hcbound c hc) (Nat.lt_irrefl _)
  · intro cid hcid
    have heq : lookupControl { st with
        nextId := st.nextId + 1
        registry := st.registry ++ [st.nextId]
        controls := st.controls ++ [c1] } cid
        = ((lookupControl st cid).or ([c1].find? (fun c => c.id == cid))) :=
      List.find?_append
    rw [heq]
    rcases List.mem_append.mp hcid with hold | hnew
    · have hsome := hlook cid hold
      cases hl : lookupControl st cid with
      | none => rw [hl] at hsome; simp at hsome
      | some c => simp
    · simp only [List.mem_singleton] at hnew
      cases hl : lookupControl st cid with
      | none =>
        have hpos : (c1.id == cid) = true := by simp [hc1, hnew]
        simp [List.find?_cons, hpos]
      | some c => simp

/-- The successful-spawn state transformation preserves the registry
invariant: the freshly registered block is running and unfinalized. -/
theorem spawn_state_RI (st : PoolState) (c1 : Control) (hc1 : c1.id = st.nextId)
    (hrun : c1.running = true) (hfin : c1.finalized = false)
    (hwf : st.WF) (hri : st.RI) :
    PoolState.RI { st with
      nextId := st.nextId + 1
      registry := st.registry ++ [st.nextId]
      controls := st.controls ++ [c1] } := by
  intro cid hcid
  have heq : lookupControl { st with
      nextId := st.nextId + 1
      registry := st.registry ++ [st.nextId]
      controls := st.controls ++ [c1] } cid
      = ((lookupControl st cid).or ([c1].find? (fun c => c.id == cid))) :=
    List.find?_append
  rcases List.mem_append.mp hcid with hold | hnew
  · obtain ⟨c, hl, hcr, hcf⟩ := hri cid hold
    exact ⟨c, by rw [heq, hl]; rfl, hcr, hcf⟩
  · simp only [List.mem_singleton] at hnew
    cases hl : lookupControl st cid with
    | none =>
      refine ⟨c1, ?_, hrun, hfin⟩
      have hpos : (c1.id == cid) = true := by simp [hc1, hnew]
      rw [heq, hl]
      simp [List.find?_cons, hpos]
    | some c =>
      exfalso
      have hmem : c ∈ st.controls := List.mem_of_find?_eq_some hl
      have hcid : c.id = cid := lookupControl_id hl
      exact wf_fresh_controls hwf c hmem (hnew ▸ hcid)

/-- A `spawnInternal` returning no error necessarily took the fully
successful path: there was room in the registry and the result has exactly
the successful-spawn shape. -/
theorem spawnInternal_none_eq (pf : Platform) (st : PoolState) (cb : Bool)
    (config : WorkerConfig) (o : ESPWorker.SpawnOracle)
    (hfresh : ∀ c ∈ st.controls, c.id ≠ st.nextId)
    (hnone : (ESPWorker.spawnInternal pf st cb config o).error = WorkerError.None) :
    st.registry.length < st.config.maxWorkers ∧
    ESPWorker.spawnInternal pf st cb config o =
      { state := { st with
          nextId := st.nextId + 1
          registry := st.registry ++ [st.nextId]
          controls := st.controls ++
            [spawnedControl config st.nextId
              (config.useExternalStack && pf.canUseExternalStacks) o.taskId o.now] }
        error := WorkerError.None
        handle := some st.nextId
        events := [WorkerEvent.Created]
        errors := []
        allocs := [st.nextId]
        frees := [] } := by
  cases cb with
  | false => simp [ESPWorker.spawnInternal] at hnone
  | true =>
  cases hv : isValidStackConfig pf config.stackSizeBytes with
  | false => simp [ESPWorker.spawnInternal, hv] at hnone
  | true =>
  cases he1 : config.useExternalStack && !st.config.enableExternalStacks with
  | true => simp [ESPWorker.spawnInternal, hv, he1] at hnone
  | false =>
  cases he2 : config.useExternalStack && !hasExternalStackSupport pf o.spiramPresent with
  | true => simp [ESPWorker.spawnInternal, hv, he1, he2] at hnone
  | false =>
  cases ha : o.allocOk with
  | false => simp [ESPWorker.spawnInternal, hv, he1, he2, ha] at hnone
  | true =>
  cases hs : o.semOk with
  | false => simp [ESPWorker.spawnInternal, hv, he1, he2, ha, hs] at hnone
  | true =>
  by_cases hmax : st.config.maxWorkers ≤ st.registry.length
  · simp [ESPWorker.spawnInternal, hv, he1, he2, ha, hs, hmax] at hnone
  cases hcr : (if config.useExternalStack then pf.canUseExternalStacks && o.createOk
      else o.createOk) with
  | false => simp [ESPWorker.spawnInternal, hv, he1, he2, ha, hs, hmax, hcr] at hnone
  | true =>
    exact ⟨Nat.lt_of_not_le hmax,
      spawnInternal_success_eq pf st config o hv he1 he2 ha hs
        (Nat.lt_of_not_le hmax) hcr hfresh⟩

/-- With a fully cooperative kernel and a valid internal-stack config, `n`
repeated spawns from a well-formed state all succeed as long as they fit
under `maxWorkers`, growing the registry by exactly `n`. -/
theorem spawnRepeat_all_ok (pf : Platform) (cfg : WorkerConfig)
    (hv : isValidStackConfig pf cfg.stackSizeBytes = true)
    (hext : cfg.useExternalStack = false) :
    ∀ (n : Nat) (st : PoolState), st.WF →
      st.registry.length + n ≤ st.config.maxWorkers →
      (spawnRepeat pf cfg n st).2.all (fun e => e = WorkerError.None) ∧
      (spawnRepeat pf cfg n st).1.registry.length = st.registry.length + n := by
  intro n
  induction n with
  | zero =>
    intro st hwf hle
    simp [spawnRepeat]
  | succ n ih =>
    intro st hwf hle
    have hroom : st.registry.length < st.config.maxWorkers := by omega
    have hsucc := spawnInternal_success_eq pf st cfg
      { allocOk := true, semOk := true, createOk := true
        taskId := st.nextId, spiramPresent := true, now := 0 }
      hv (by rw [hext]; rfl) (by rw [hext]; rfl) rfl rfl hroom
      (by rw [hext]; simp) (wf_fresh_controls hwf)
    have hwf2 := spawn_state_WF st
      (spawnedControl cfg st.nextId (cfg.useExternalStack && pf.canUseExternalStacks)
        st.nextId 0) rfl hwf
    unfold spawnRepeat
    rw [hsucc]
    have hih := ih { st with
      nextId := st.nextId + 1
      registry := st.registry ++ [st.nextId]
      controls := st.controls ++
        [spawnedControl cfg st.nextId (cfg.useExternalStack && pf.canUseExternalStacks)
          st.nextId 0] } hwf2 (by simp; omega)
    refine ⟨?_, ?_⟩
    · simp only [List.all_cons, hih.1, Bool.and_true]
      simp
    · rw [hih.2]
      simp
      omega

/-! ### Claim C5 -/

/-- Example platform: 4-byte stack words, caps-backed stacks available,
10 ms ticks. -/
def exPlatform : Platform := { stackTypeSize := 4, canUseExternalStacks := true, tickPeriodMs := 10 }

/-- Example already-resolved worker config with a valid internal stack. -/
def exConfig : WorkerConfig :=
  { stackSizeBytes := 2048, priority := 1, coreId := 0, name := "w", useExternalStack := false }

/-- Example kernel oracle where every kernel call succeeds. -/
def exOracle : ESPWorker.SpawnOracle :=
  { allocOk := true, semOk := true, createOk := true, taskId := 9, spiramPresent := true, now := 4 }

/-- `exState` with its worker ceiling lowered to 1, i.e. a pool at capacity. -/
def exFullState : PoolState :=
  { exState with config := { exState.config with maxWorkers := 1 } }

/-- Claim C5: `spawnInternal` enforces the `maxWorkers` ceiling with one
check-and-reserve (performed atomically under the registry mutex in the
source): at capacity the spawn fails with `MaxWorkersReached` and the active
count is unchanged; below capacity with a cooperative kernel the spawn
succeeds and grows the count by one; no spawn ever pushes the registry above
`maxWorkers`; and from any well-formed state, `n` further spawns with a valid
internal-stack config all succeed whenever they fit under the ceiling. -/
theorem c5_max_workers_ceiling (pf : Platform) (st : PoolState) (config : WorkerConfig)
    (o : ESPWorker.SpawnOracle) (hwf : st.WF)
    (hv : isValidStackConfig pf config.stackSizeBytes = true)
    (he1 : (config.useExternalStack && !st.config.enableExternalStacks) = false)
    (he2 : (config.useExternalStack && !hasExternalStackSupport pf o.spiramPresent) = false)
    (ha : o.allocOk = true) (hs : o.semOk = true) :
    (st.config.maxWorkers ≤ st.registry.length →
      (ESPWorker.spawnInternal pf st true config o).error = WorkerError.MaxWorkersReached ∧
      ESPWorker.activeWorkers (ESPWorker.spawnInternal pf st true config o).state
        = ESPWorker.activeWorkers st) ∧
    (st.registry.length < st.config.maxWorkers →
      (if config.useExternalStack then pf.canUseExternalStacks && o.createOk
        else o.createOk) = true →
      (ESPWorker.spawnInternal pf st true config o).error = WorkerError.None ∧
      ESPWorker.activeWorkers (ESPWorker.spawnInternal pf st true config o).state
        = ESPWorker.activeWorkers st + 1) ∧
    (∀ (cb : Bool) (cfg2 : WorkerConfig) (o2 : ESPWorker.SpawnOracle),
      ESPWorker.activeWorkers st ≤ st.config.maxWorkers →
      ESPWorker.activeWorkers (ESPWorker.spawnInternal pf st cb cfg2 o2).state
        ≤ st.config.maxWorkers) ∧
    (∀ (n : Nat) (cfg2 : WorkerConfig),
      isValidStackConfig pf cfg2.stackSizeBytes = true →
      cfg2.useExternalStack = false →
      st.registry.length + n ≤ st.config.maxWorkers →
      (spawnRepeat pf cfg2 n st).2.all (fun e => e = WorkerError.None) ∧
      ESPWorker.activeWorkers (spawnRepeat pf cfg2 n st).1
        = ESPWorker.activeWorkers st + n) := by
  refine ⟨?_, ?_, ?_, ?_⟩
  · intro hcap
    constructor
    · simp [ESPWorker.spawnInternal, hv, he1, he2, ha, hs, hcap]
    · simp [ESPWorker.spawnInternal, ESPWorker.activeWorkers, hv, he1, he2, ha, hs, hcap]
  · intro hroom hcr
    rw [spawnInternal_success_eq pf st config o hv he1 he2 ha hs hroom hcr
      (wf_fresh_controls hwf)]
    simp [ESPWorker.activeWorkers]
  · intro cb cfg2 o2 hle
    by_cases herr : (ESPWorker.spawnInternal pf st cb cfg2 o2).error = WorkerError.None
    · obtain ⟨hroom, heq⟩ := spawnInternal_none_eq pf st cb cfg2 o2
        (wf_fresh_controls hwf) herr
      rw [heq]
      simp only [ESPWorker.activeWorkers, List.length_append, List.length_singleton]
      omega
    · obtain ⟨hr, -⟩ := spawnInternal_rollback pf st cb cfg2 o2
        (wf_nextId_not_mem hwf) (wf_fresh_controls hwf) herr
      simp only [ESPWorker.activeWorkers, hr]
      exact hle
  · intro n cfg2 hv2 hext2 hle
    exact spawnRepeat_all_ok pf cfg2 hv2 hext2 n st hwf hle

/-- Witness for C5: with `maxWorkers = 1` and one registered worker the next
spawn fails with `MaxWorkersReached` leaving the count at 1; with
`maxWorkers = 8` it succeeds growing the count to 2, any spawn keeps the
count within 8, and 7 further spawns all succeed reaching exactly 8. -/
theorem c5_max_workers_ceiling_witness :
    ((ESPWorker.spawnInternal exPlatform exFullState true exConfig exOracle).error
        = WorkerError.MaxWorkersReached ∧
      ESPWorker.activeWorkers
          (ESPWorker.spawnInternal exPlatform exFullState true exConfig exOracle).state
        = ESPWorker.activeWorkers exFullState) ∧
    ((ESPWorker.spawnInternal exPlatform exState true exConfig exOracle).error
        = WorkerError.None ∧
      ESPWorker.activeWorkers
          (ESPWorker.spawnInternal exPlatform exState true exConfig exOracle).state
        = ESPWorker.activeWorkers exState + 1) ∧
    ESPWorker.activeWorkers
        (ESPWorker.spawnInternal exPlatform exState false exConfig exOracle).state ≤ 8 ∧
    ((spawnRepeat exPlatform exConfig 7 exState).2.all (fun e => e = WorkerError.None) ∧
      ESPWorker.activeWorkers (spawnRepeat exPlatform exConfig 7 exState).1
        = ESPWorker.activeWorkers exState + 7) := by
  have Tfull := c5_max_workers_ceiling exPlatform exFullState exConfig exOracle
    ⟨by decide, by decide, by decide, by decide, by decide⟩
    (by decide) (by decide) (by decide) rfl rfl
  have T := c5_max_workers_ceiling exPlatform exState exConfig exOracle
    ⟨by decide, by decide, by decide, by decide, by decide⟩
    (by decide) (by decide) (by decide) rfl rfl
  refine ⟨Tfull.1 (by decide), T.2.1 (by decide) (by decide), ?_, ?_⟩
  · have := T.2.2.1 false exConfig exOracle (by decide)
    simpa using this
  · exact T.2.2.2 7 exConfig (by decide) (by decide) (by decide)

/-- `spawn` is `spawnInternal` on a state with identical registry, live
controls and allocator position (lazy init and name-counter advance touch
neither). -/
theorem spawn_eq_spawnInternal (pf : Platform) (st : PoolState) (cb : Bool)
    (config : WorkerConfig) (o : ESPWorker.SpawnOracle) :
    ∃ (st2 : PoolState) (cfg2 : WorkerConfig),
      ESPWorker.spawn pf st cb config o = ESPWorker.spawnInternal pf st2 cb cfg2 o ∧
      st2.registry = st.registry ∧ st2.controls = st.controls ∧
      st2.nextId = st.nextId := by
  unfold ESPWorker.spawn
  cases hinit : st.initialized with
  | false =>
    simp only [hinit, Bool.not_false, if_true]
    split
    · exact ⟨_, _, rfl, rfl, rfl, rfl⟩
    · exact ⟨_, _, rfl, rfl, rfl, rfl⟩
  | true =>
    simp only [hinit, Bool.not_true, if_false]
    split
    · exact ⟨_, _, rfl, rfl, rfl, rfl⟩
    · exact ⟨_, _, rfl, rfl, rfl, rfl⟩

/-! ### Claim C6 -/

/-- Claim C6: every spawn error other than `None` leaves the pool rolled
back — the registry and the set of live control blocks equal their pre-call
values (in particular kernel task-creation failure removes the block that was
provisionally registered, yielding `TaskCreateFailed`), every provisionally
allocated control buffer is freed, no handle is produced, no lifecycle event
is emitted — and the registered error observer is invoked with exactly that
error value. Stated for `spawnInternal`, `spawn` and `spawnExt`. -/
theorem c6_error_rollback_and_notify (pf : Platform) (st : PoolState) (cb : Bool)
    (config : WorkerConfig) (o : ESPWorker.SpawnOracle) (hwf : st.WF) :
    ((ESPWorker.spawnInternal pf st cb config o).error ≠ WorkerError.None →
      (ESPWorker.spawnInternal pf st cb config o).state.registry = st.registry ∧
      (ESPWorker.spawnInternal pf st cb config o).state.controls = st.controls ∧
      (ESPWorker.spawnInternal pf st cb config o).handle = none ∧
      (ESPWorker.spawnInternal pf st cb config o).frees
        = (ESPWorker.spawnInternal pf st cb config o).allocs ∧
      (ESPWorker.spawnInternal pf st cb config o).errors
        = [(ESPWorker.spawnInternal pf st cb config o).error] ∧
      (ESPWorker.spawnInternal pf st cb config o).events = []) ∧
    ((ESPWorker.spawn pf st cb config o).error ≠ WorkerError.None →
      (ESPWorker.spawn pf st cb config o).state.registry = st.registry ∧
      (ESPWorker.spawn pf st cb config o).state.controls = st.controls ∧
      (ESPWorker.spawn pf st cb config o).handle = none ∧
      (ESPWorker.spawn pf st cb config o).frees
        = (ESPWorker.spawn pf st cb config o).allocs ∧
      (ESPWorker.spawn pf st cb config o).errors
        = [(ESPWorker.spawn pf st cb config o).error] ∧
      (ESPWorker.spawn pf st cb config o).events = []) ∧
    ((ESPWorker.spawnExt pf st cb config o).error ≠ WorkerError.None →
      (ESPWorker.spawnExt pf st cb config o).state.registry = st.registry ∧
      (ESPWorker.spawnExt pf st cb config o).state.controls = st.controls ∧
      (ESPWorker.spawnExt pf st cb config o).handle = none ∧
      (ESPWorker.spawnExt pf st cb config o).frees
        = (ESPWorker.spawnExt pf st cb config o).allocs ∧
      (ESPWorker.spawnExt pf st cb config o).errors
        = [(ESPWorker.spawnExt pf st cb config o).error]) ∧
    (isValidStackConfig pf config.stackSizeBytes = true →
      (config.useExternalStack && !st.config.enableExternalStacks) = false →
      (config.useExternalStack && !hasExternalStackSupport pf o.spiramPresent) = false →
      o.allocOk = true → o.semOk = true →
      st.registry.length < st.config.maxWorkers →
      (if config.useExternalStack then pf.canUseExternalStacks && o.createOk
        else o.createOk) = false →
      (ESPWorker.spawnInternal pf st true config o).error
        = WorkerError.TaskCreateFailed) := by
  refine ⟨?_, ?_, ?_, ?_⟩
  · intro herr
    exact spawnInternal_rollback pf st cb config o
      (wf_nextId_not_mem hwf) (wf_fresh_controls hwf) herr
  · intro herr
    obtain ⟨st2, cfg2, heq, hr, hc, hn⟩ := spawn_eq_spawnInternal pf st cb config o
    rw [heq] at herr ⊢
    have := spawnInternal_rollback pf st2 cb cfg2 o
      (hn ▸ hr ▸ wf_nextId_not_mem hwf) (hn ▸ hc ▸ wf_fresh_controls hwf) herr
    rw [hr, hc] at this
    exact this
  · intro herr
    unfold ESPWorker.spawnExt at herr ⊢
    obtain ⟨st2, cfg2, heq, hr, hc, hn⟩ := spawn_eq_spawnInternal pf st cb
      { config with useExternalStack := true } o
    rw [heq] at herr ⊢
    have := spawnInternal_rollback pf st2 cb cfg2 o
      (hn ▸ hr ▸ wf_nextId_not_mem hwf) (hn ▸ hc ▸ wf_fresh_controls hwf) herr
    rw [hr, hc] at this
    exact ⟨this.1, this.2.1, this.2.2.1, this.2.2.2.1, this.2.2.2.2.1⟩
  · intro hv he1 he2 ha hs hroom hcr
    have hmax : ¬ (st.config.maxWorkers ≤ st.registry.length) := Nat.not_le.mpr hroom
    simp [ESPWorker.spawnInternal, hv, he1, he2, ha, hs, hmax, hcr]

/-- Witness for C6 at concrete failing spawns: a spawn with an empty callback
and a spawn into a full pool both roll back and notify; a kernel refusing
task creation yields `TaskCreateFailed`. -/
theorem c6_error_rollback_and_notify_witness :
    ((ESPWorker.spawnInternal exPlatform exState false exConfig exOracle).state.registry
        = exState.registry ∧
      (ESPWorker.spawnInternal exPlatform exState false exConfig exOracle).state.controls
        = exState.controls ∧
      (ESPWorker.spawnInternal exPlatform exState false exConfig exOracle).handle = none ∧
      (ESPWorker.spawnInternal exPlatform exState false exConfig exOracle).frees
        = (ESPWorker.spawnInternal exPlatform exState false exConfig exOracle).allocs ∧
      (ESPWorker.spawnInternal exPlatform exState false exConfig exOracle).errors
        = [(ESPWorker.spawnInternal exPlatform exState false exConfig exOracle).error] ∧
      (ESPWorker.spawnInternal exPlatform exState false exConfig exOracle).events = []) ∧
    ((ESPWorker.spawn exPlatform exFullState true exConfig exOracle).state.registry
        = exFullState.registry ∧
      (ESPWorker.spawn exPlatform exFullState true exConfig exOracle).state.controls
        = exFullState.controls ∧
      (ESPWorker.spawn exPlatform exFullState true exConfig exOracle).handle = none ∧
      (ESPWorker.spawn exPlatform exFullState true exConfig exOracle).frees
        = (ESPWorker.spawn exPlatform exFullState true exConfig exOracle).allocs ∧
      (ESPWorker.spawn exPlatform exFullState true exConfig exOracle).errors
        = [(ESPWorker.spawn exPlatform exFullState true exConfig exOracle).error] ∧
      (ESPWorker.spawn exPlatform exFullState true exConfig exOracle).events = []) ∧
    (ESPWorker.spawnInternal exPlatform exState true exConfig
        { exOracle with createOk := false }).error = WorkerError.TaskCreateFailed := by
  have T1 := c6_error_rollback_and_notify exPlatform exState false exConfig exOracle
    ⟨by decide, by decide, by decide, by decide, by decide⟩
  have T2 := c6_error_rollback_and_notify exPlatform exFullState true exConfig exOracle
    ⟨by decide, by decide, by decide, by decide, by decide⟩
  have T3 := c6_error_rollback_and_notify exPlatform exState true exConfig
    { exOracle with createOk := false }
    ⟨by decide, by decide, by decide, by decide, by decide⟩
  exact ⟨T1.1 (by decide), T2.2.1 (by decide),
    T3.2.2.2 rfl rfl rfl rfl rfl (by decide) rfl⟩

/-- Finalize only ever shrinks the registry. -/
theorem finalizeWorker_registry_subset (st : PoolState) (cid : Nat) (d : Bool) (now : Nat) :
    ∀ x ∈ (ESPWorker.finalizeWorker st cid d now).1.registry, x ∈ st.registry := by
  intro x hx
  cases hl : lookupControl st cid with
  | none => rw [finalizeWorker_none st cid d now hl] at hx; exact hx
  | some c =>
    cases hf : c.finalized with
    | true => rw [finalizeWorker_already st cid d now c hl hf] at hx; exact hx
    | false =>
      rw [finalizeWorker_winning st cid d now c hl hf] at hx
      exact List.mem_of_mem_filter hx

/-- Finalize preserves the registry invariant. -/
theorem finalizeWorker_RI (st : PoolState) (cid : Nat) (d : Bool) (now : Nat)
    (hri : st.RI) : PoolState.RI (ESPWorker.finalizeWorker st cid d now).1 := by
  cases hl : lookupControl st cid with
  | none => rw [finalizeWorker_none st cid d now hl]; exact hri
  | some c =>
    cases hf : c.finalized with
    | true => rw [finalizeWorker_already st cid d now c hl hf]; exact hri
    | false =>
      intro x hx
      have hreg : (ESPWorker.finalizeWorker st cid d now).1.registry
          = st.registry.filter (fun y => y != cid) := by
        rw [finalizeWorker_winning st cid d now c hl hf]
      rw [hreg] at hx
      have hmem := List.mem_of_mem_filter hx
      have hne : x ≠ cid := by
        have := List.of_mem_filter hx
        simpa using this
      obtain ⟨cx, hlx, hrx, hfx⟩ := hri x hmem
      refine ⟨cx, ?_, hrx, hfx⟩
      rw [finalizeWorker_lookup_other st cid d now x hne]
      exact hlx

/-- `destroyWorker` either leaves the state alone or finalizes the block. -/
theorem destroyWorker_state_cases (st : PoolState) (cid ct now : Nat) :
    (ESPWorker.destroyWorker st cid ct now).1 = st ∨
    (ESPWorker.destroyWorker st cid ct now).1
      = (ESPWorker.finalizeWorker st cid true now).1 := by
  unfold ESPWorker.destroyWorker
  cases hl : lookupControl st cid with
  | none => left; rfl
  | some c =>
    cases hr : c.running with
    | false => left; simp [hr]
    | true =>
      cases hth : c.taskHandle with
      | none => right; simp [hr, hth]
      | some t =>
        by_cases he : ct = t
        · left; simp [hr, hth, he]
        · right; simp [hr, hth, he]

/-- `cleanupFinished` keeps exactly the registered identities that still
resolve to a running block. -/
theorem cleanupFinished_mem (st : PoolState) (x : Nat) :
    x ∈ (ESPWorker.cleanupFinished st).registry ↔
      x ∈ st.registry ∧ ∃ c, lookupControl st x = some c ∧ c.running = true := by
  unfold ESPWorker.cleanupFinished
  simp only [List.mem_filter]
  constructor
  · rintro ⟨hmem, hp⟩
    refine ⟨hmem, ?_⟩
    cases hl : lookupControl st x with
    | none => rw [hl] at hp; exact absurd hp (by simp)
    | some c =>
      rw [hl] at hp
      exact ⟨c, rfl, hp⟩
  · rintro ⟨hmem, c, hl, hr⟩
    exact ⟨hmem, by rw [hl]; exact hr⟩

/-- Under the registry invariant `cleanupFinished` prunes nothing: no block
still registered (hence unfinalized) is ever removed by it. -/
theorem cleanupFinished_noop (st : PoolState) (hri : st.RI) :
    (ESPWorker.cleanupFinished st).registry = st.registry := by
  unfold ESPWorker.cleanupFinished
  apply List.filter_eq_self.mpr
  intro a ha
  obtain ⟨c, hl, hr, -⟩ := hri a ha
  rw [hl]
  exact hr

/-- `cleanupFinished` preserves the registry invariant. -/
theorem cleanupFinished_RI (st : PoolState) (hri : st.RI) :
    PoolState.RI (ESPWorker.cleanupFinished st) := by
  intro x hx
  have hmem : x ∈ st.registry := ((cleanupFinished_mem st x).mp hx).1
  obtain ⟨c, hl, hr, hf⟩ := hri x hmem
  exact ⟨c, hl, hr, hf⟩

/-- `destroyWorker` preserves the registry invariant. -/
theorem destroyWorker_RI (st : PoolState) (cid ct now : Nat) (hri : st.RI) :
    PoolState.RI (ESPWorker.destroyWorker st cid ct now).1 := by
  rcases destroyWorker_state_cases st cid ct now with h | h
  · rw [h]; exact hri
  · rw [h]; exact finalizeWorker_RI st cid true now hri

/-! ### Claim C9 -/

/-- Claim C9: a control block is in the registry exactly from successful
creation until its finalize — a successful spawn registers precisely one
fresh block (an identity never registered before and not carried by any live
block, so nothing re-enters after finalize), a failed spawn registers
nothing, a winning finalize removes exactly the finalized block, no pool
operation ever adds to the registry except spawn, `cleanupFinished` keeps
exactly the entries that still resolve to a running block, and under the
registry invariant (registered ⇒ running ∧ unfinalized, preserved by every
operation) `cleanupFinished` removes nothing — no block is ever removed
before its finalize. -/
theorem c9_registry_from_creation_to_finalize (pf : Platform) (st : PoolState)
    (cb : Bool) (config : WorkerConfig) (o : ESPWorker.SpawnOracle)
    (cid : Nat) (d : Bool) (now ct : Nat) (hwf : st.WF) :
    ((ESPWorker.spawnInternal pf st cb config o).error = WorkerError.None →
      (ESPWorker.spawnInternal pf st cb config o).state.registry
        = st.registry ++ [st.nextId] ∧
      st.nextId ∉ st.registry ∧
      (∀ c ∈ st.controls, c.id ≠ st.nextId) ∧
      (∃ cnew, lookupControl (ESPWorker.spawnInternal pf st cb config o).state st.nextId
          = some cnew ∧ cnew.running = true ∧ cnew.finalized = false)) ∧
    ((ESPWorker.spawnInternal pf st cb config o).error ≠ WorkerError.None →
      (ESPWorker.spawnInternal pf st cb config o).state.registry = st.registry) ∧
    (∀ c, lookupControl st cid = some c → c.finalized = false →
      (ESPWorker.finalizeWorker st cid d now).1.registry
          = st.registry.filter (fun x => x != cid) ∧
      cid ∉ (ESPWorker.finalizeWorker st cid d now).1.registry) ∧
    (∀ x ∈ (ESPWorker.finalizeWorker st cid d now).1.registry, x ∈ st.registry) ∧
    (∀ x ∈ (ESPWorker.destroyWorker st cid ct now).1.registry, x ∈ st.registry) ∧
    (∀ x, x ∈ (ESPWorker.cleanupFinished st).registry ↔
      x ∈ st.registry ∧ ∃ c, lookupControl st x = some c ∧ c.running = true) ∧
    (st.RI →
      (ESPWorker.cleanupFinished st).registry = st.registry ∧
      PoolState.RI (ESPWorker.finalizeWorker st cid d now).1 ∧
      PoolState.RI (ESPWorker.destroyWorker st cid ct now).1 ∧
      PoolState.RI (ESPWorker.cleanupFinished st) ∧
      ((ESPWorker.spawnInternal pf st cb config o).error = WorkerError.None →
        PoolState.RI (ESPWorker.spawnInternal pf st cb config o).state)) := by
  refine ⟨?_, ?_, ?_, ?_, ?_, cleanupFinished_mem st, ?_⟩
  · intro hnone
    obtain ⟨hroom, heq⟩ := spawnInternal_none_eq pf st cb config o
      (wf_fresh_controls hwf) hnone
    rw [heq]
    refine ⟨rfl, wf_nextId_not_mem hwf, wf_fresh_controls hwf, ?_⟩
    refine ⟨spawnedControl config st.nextId
      (config.useExternalStack && pf.canUseExternalStacks) o.taskId o.now, ?_, rfl, rfl⟩
    have heq2 : lookupControl { st with
        nextId := st.nextId + 1
        registry := st.registry ++ [st.nextId]
        controls := st.controls ++
          [spawnedControl config st.nextId
            (config.useExternalStack && pf.canUseExternalStacks) o.taskId o.now] } st.nextId
        = ((lookupControl st st.nextId).or
            ([spawnedControl config st.nextId
              (config.useExternalStack && pf.canUseExternalStacks) o.taskId o.now].find?
                (fun c => c.id == st.nextId))) :=
      List.find?_append
    rw [heq2]
    cases hl : lookupControl st st.nextId with
    | none => simp [List.find?_cons, spawnedControl]
    | some c =>
      exfalso
      exact wf_fresh_controls hwf c (List.mem_of_find?_eq_some hl) (lookupControl_id hl)
  · intro herr
    exact (spawnInternal_rollback pf st cb config o
      (wf_nextId_not_mem hwf) (wf_fresh_controls hwf) herr).1
  · intro c hl hf
    constructor
    · rw [finalizeWorker_winning st cid d now c hl hf]
    · rw [finalizeWorker_winning st cid d now c hl hf]
      simp
  · exact finalizeWorker_registry_subset st cid d now
  · intro x hx
    rcases destroyWorker_state_cases st cid ct now with h | h
    · rw [h] at hx; exact hx
    · rw [h] at hx; exact finalizeWorker_registry_subset st cid true now x hx
  · intro hri
    refine ⟨cleanupFinished_noop st hri, finalizeWorker_RI st cid d now hri,
      destroyWorker_RI st cid ct now hri, cleanupFinished_RI st hri, ?_⟩
    intro hnone
    obtain ⟨hroom, heq⟩ := spawnInternal_none_eq pf st cb config o
      (wf_fresh_controls hwf) hnone
    rw [heq]
    exact spawn_state_RI st _ rfl rfl rfl hwf hri

/-- Witness for C9 at the concrete one-worker pool: the successful spawn
appends exactly the fresh identity, the winning finalize removes exactly the
finalized block, and `cleanupFinished` removes nothing while the block is
still running. -/
theorem c9_registry_from_creation_to_finalize_witness :
    (ESPWorker.spawnInternal exPlatform exState true exConfig exOracle).state.registry
        = exState.registry ++ [exState.nextId] ∧
    ((ESPWorker.finalizeWorker exState 0 true 9).1.registry
        = exState.registry.filter (fun x => x != 0) ∧
      0 ∉ (ESPWorker.finalizeWorker exState 0 true 9).1.registry) ∧
    (ESPWorker.cleanupFinished exState).registry = exState.registry := by
  have hwf : exState.WF := ⟨by decide, by decide, by decide, by decide, by decide⟩
  have hri : exState.RI := by
    intro cid hcid
    have hc : cid = 0 := by simpa [exState] using hcid
    exact ⟨exControl, by rw [hc]; rfl, rfl, rfl⟩
  have T := c9_registry_from_creation_to_finalize exPlatform exState true exConfig
    exOracle 0 true 9 5 hwf
  exact ⟨(T.1 rfl).1, T.2.2.1 exControl rfl rfl, (T.2.2.2.2.2.2 hri).1⟩

/-! ### Claim C7 -/

/-- Claim C7: `wait` on a handle whose control block (every block handed out
by a successful spawn carries a created completion semaphore) is already not
running returns true immediately without reaching the blocking semaphore
take; while the block is running, a successful take returns true, and a
timed-out take returns true exactly when `running` was found cleared at the
re-check; `wait` on a handle with no control block returns false. -/
theorem c7_wait_semantics (c : Control) (takeOk runningLater : Bool)
    (hc : c.hasCompletion = true) :
    (c.running = false →
      WorkerHandler.wait (some c) takeOk runningLater = true ∧
      WorkerHandler.waitBlocks (some c) = false) ∧
    (c.running = true →
      WorkerHandler.wait (some c) true runningLater = true ∧
      (WorkerHandler.wait (some c) false runningLater = true ↔ runningLater = false)) ∧
    WorkerHandler.wait none takeOk runningLater = false ∧
    (∀ (pf : Platform) (st : PoolState) (cb : Bool) (cfg : WorkerConfig)
        (o : ESPWorker.SpawnOracle) (cid : Nat),
      PoolState.WF st →
      (ESPWorker.spawnInternal pf st cb cfg o).handle = some cid →
      ∃ cw, lookupControl (ESPWorker.spawnInternal pf st cb cfg o).state cid = some cw ∧
        cw.hasCompletion = true) := by
  refine ⟨?_, ?_, rfl, ?_⟩
  · intro hr
    unfold WorkerHandler.wait WorkerHandler.waitBlocks
    simp [hc, hr]
  · intro hr
    unfold WorkerHandler.wait
    simp [hc, hr]
  · intro pf st cb cfg o cid hwf hhandle
    have hnone : (ESPWorker.spawnInternal pf st cb cfg o).error = WorkerError.None := by
      by_contra herr
      have := (spawnInternal_rollback pf st cb cfg o
        (wf_nextId_not_mem hwf) (wf_fresh_controls hwf) herr).2.2.1
      rw [this] at hhandle
      exact absurd hhandle (by simp)
    obtain ⟨hroom, heq⟩ := spawnInternal_none_eq pf st cb cfg o
      (wf_fresh_controls hwf) hnone
    rw [heq] at hhandle ⊢
    have hcid : cid = st.nextId := by simpa using hhandle.symm
    rw [hcid]
    refine ⟨spawnedControl cfg st.nextId
      (cfg.useExternalStack && pf.canUseExternalStacks) o.taskId o.now, ?_, rfl⟩
    have heq2 : lookupControl { st with
        nextId := st.nextId + 1
        registry := st.registry ++ [st.nextId]
        controls := st.controls ++
          [spawnedControl cfg st.nextId
            (cfg.useExternalStack && pf.canUseExternalStacks) o.taskId o.now] } st.nextId
        = ((lookupControl st st.nextId).or
            ([spawnedControl cfg st.nextId
              (cfg.useExternalStack && pf.canUseExternalStacks) o.taskId o.now].find?
                (fun c => c.id == st.nextId))) :=
      List.find?_append
    rw [heq2]
    cases hl : lookupControl st st.nextId with
    | none => simp [List.find?_cons, spawnedControl]
    | some cx =>
      exfalso
      exact wf_fresh_controls hwf cx (List.mem_of_find?_eq_some hl) (lookupControl_id hl)

/-- Witness for C7: a finished worker's handle returns true without blocking;
a running worker's timed-out wait reflects the re-checked flag; an empty
handle returns false. -/
theorem c7_wait_semantics_witness :
    (WorkerHandler.wait (some (finalizedControl exControl false 9)) false true = true ∧
      WorkerHandler.waitBlocks (some (finalizedControl exControl false 9)) = false) ∧
    (WorkerHandler.wait (some exControl) true true = true ∧
      (WorkerHandler.wait (some exControl) false true = true ↔ true = false)) ∧
    WorkerHandler.wait none false true = false := by
  have T1 := c7_wait_semantics (finalizedControl exControl false 9) false true rfl
  have T2 := c7_wait_semantics exControl false true rfl
  exact ⟨T1.1 rfl, ⟨(T2.2.1 rfl).1, (T2.2.1 rfl).2⟩, T2.2.2.1⟩

/-! ### Claim C10 -/

/-- Claim C10: `getDiag` on a handle constructed without a control block does
not fail — it returns the zero-initialized per-worker snapshot (runtime 0,
not running, not destroyed, null task handle, default-constructed config) for
any platform and any current tick; the embedded operation is a pure function
of the handle, so no state is touched. -/
theorem c10_invalid_handle_diag (pf : Platform) (now : Nat) :
    WorkerHandler.getDiag pf none now =
      { config := WorkerConfig.default pf, runtimeMs := 0, running := false
        destroyed := false, taskHandle := none } := rfl

/-- With a callable callback and a valid stack size, `spawnInternal` never
returns `InvalidConfig` (all remaining failures carry other codes). -/
theorem spawnInternal_not_invalidConfig (pf : Platform) (st : PoolState)
    (config : WorkerConfig) (o : ESPWorker.SpawnOracle)
    (hv : isValidStackConfig pf config.stackSizeBytes = true) :
    (ESPWorker.spawnInternal pf st true config o).error ≠ WorkerError.InvalidConfig := by
  cases he1 : config.useExternalStack && !st.config.enableExternalStacks with
  | true => simp [ESPWorker.spawnInternal, hv, he1]
  | false =>
  cases he2 : config.useExternalStack && !hasExternalStackSupport pf o.spiramPresent with
  | true => simp [ESPWorker.spawnInternal, hv, he1, he2]
  | false =>
  cases ha : o.allocOk with
  | false => simp [ESPWorker.spawnInternal, hv, he1, he2, ha]
  | true =>
  cases hs : o.semOk with
  | false => simp [ESPWorker.spawnInternal, hv, he1, he2, ha, hs]
  | true =>
  by_cases hmax : st.config.maxWorkers ≤ st.registry.length
  · simp [ESPWorker.spawnInternal, hv, he1, he2, ha, hs, hmax]
  cases hcr : (if config.useExternalStack then pf.canUseExternalStacks && o.createOk
      else o.createOk) with
  | false => simp [ESPWorker.spawnInternal, hv, he1, he2, ha, hs, hmax, hcr]
  | true => simp [ESPWorker.spawnInternal, hv, he1, he2, ha, hs, hmax, hcr]

/-! ### Claim C3 -/

/-- Counterexample to C3 as stated: a caller config with `stackSizeBytes = 0`
does not fail — `spawn` first replaces a zero size with the pool default
(here the default pool config, whose stack size is valid), so this spawn
returns `None`, not `InvalidConfig`. -/
theorem c3_zero_stack_spawn_succeeds :
    (ESPWorker.spawn exPlatform (initialPoolState exPlatform) true
      { stackSizeBytes := 0, priority := 1, coreId := 0, name := "w"
        useExternalStack := false } exOracle).error = WorkerError.None ∧
    WorkerError.None ≠ WorkerError.InvalidConfig := by
  exact ⟨rfl, by decide⟩

/-- Claim C3 (amended): the stack-size validation applied to the resolved
config rejects invalid sizes with `InvalidConfig` — 0 is invalid, one byte
below the minimum is invalid, minimum+1 is invalid whenever the stack-word
size exceeds 1 (and is even, as on every real port), and an aligned size at
exactly the minimum is valid, in which case `spawnInternal` never returns
`InvalidConfig`; however `spawn` resolves a caller-supplied
`stackSizeBytes = 0` to the pool default before validating, so a zero config
with a valid pool default does not fail with `InvalidConfig`. -/
theorem c3_stack_validation (pf : Platform) (st : PoolState)
    (config : WorkerConfig) (o : ESPWorker.SpawnOracle) :
    isValidStackConfig pf 0 = false ∧
    isValidStackConfig pf 1023 = false ∧
    (pf.stackTypeSize % 2 = 0 → 1 < pf.stackTypeSize →
      isValidStackConfig pf 1025 = false) ∧
    (pf.stackTypeSize ∣ 1024 → isValidStackConfig pf 1024 = true) ∧
    (isValidStackConfig pf config.stackSizeBytes = false →
      (ESPWorker.spawnInternal pf st true config o).error = WorkerError.InvalidConfig ∧
      (ESPWorker.spawnInternal pf st true config o).state = st) ∧
    (isValidStackConfig pf config.stackSizeBytes = true →
      (ESPWorker.spawnInternal pf st true config o).error ≠ WorkerError.InvalidConfig) ∧
    (st.initialized = true → config.stackSizeBytes = 0 →
      isValidStackConfig pf st.config.stackSizeBytes = true →
      (ESPWorker.spawn pf st true config o).error ≠ WorkerError.InvalidConfig) := by
  refine ⟨?_, ?_, ?_, ?_, ?_, ?_, ?_⟩
  · unfold isValidStackConfig kMinStackSizeBytes
    norm_num
  · unfold isValidStackConfig kMinStackSizeBytes
    norm_num
  · intro hw2 hw1
    unfold isValidStackConfig kMinStackSizeBytes
    rw [if_neg (by omega)]
    simp only [beq_eq_false_iff_ne, ne_eq]
    intro hmod
    have hdvd : pf.stackTypeSize ∣ 1025 := Nat.dvd_of_mod_eq_zero hmod
    have h2 : (2 : Nat) ∣ 1025 :=
      Nat.dvd_trans (Nat.dvd_of_mod_eq_zero hw2) hdvd
    exact absurd h2 (by decide)
  · intro hdvd
    unfold isValidStackConfig kMinStackSizeBytes
    rw [if_neg (by omega)]
    simp [Nat.mod_eq_zero_of_dvd hdvd]
  · intro hv
    constructor
    · simp [ESPWorker.spawnInternal, hv]
    · simp [ESPWorker.spawnInternal, hv]
  · exact fun hv => spawnInternal_not_invalidConfig pf st config o hv
  · intro hinit h0 hvd
    unfold ESPWorker.spawn
    simp only [hinit, Bool.not_true, if_false, h0, if_true, ite_true]
    split
    · exact spawnInternal_not_invalidConfig pf _ _ o (by simpa using hvd)
    · exact spawnInternal_not_invalidConfig pf _ _ o (by simpa using hvd)

/-- Witness for C3 (amended) at the concrete platform with 4-byte stack
words: 0, 1023 and 1025 rejected, 1024 accepted; an invalid explicit size
makes `spawnInternal` fail with `InvalidConfig`; a valid one never does; a
zero size resolved from a valid pool default never does. -/
theorem c3_stack_validation_witness :
    isValidStackConfig exPlatform 0 = false ∧
    isValidStackConfig exPlatform 1023 = false ∧
    isValidStackConfig exPlatform 1025 = false ∧
    isValidStackConfig exPlatform 1024 = true ∧
    ((ESPWorker.spawnInternal exPlatform exState true
        { exConfig with stackSizeBytes := 1023 } exOracle).error
      = WorkerError.InvalidConfig ∧
      (ESPWorker.spawnInternal exPlatform exState true
        { exConfig with stackSizeBytes := 1023 } exOracle).state = exState) ∧
    (ESPWorker.spawnInternal exPlatform exState true
        { exConfig with stackSizeBytes := 1024 } exOracle).error
      ≠ WorkerError.InvalidConfig ∧
    (ESPWorker.spawn exPlatform exState true
        { exConfig with stackSizeBytes := 0 } exOracle).error
      ≠ WorkerError.InvalidConfig := by
  have T1 := c3_stack_validation exPlatform exState
    { exConfig with stackSizeBytes := 1023 } exOracle
  have T2 := c3_stack_validation exPlatform exState
    { exConfig with stackSizeBytes := 1024 } exOracle
  have T3 := c3_stack_validation exPlatform exState
    { exConfig with stackSizeBytes := 0 } exOracle
  exact ⟨T1.1, T1.2.1, T1.2.2.1 (by decide) (by decide), T1.2.2.2.1 (by decide),
    T1.2.2.2.2.1 (by decide), T2.2.2.2.2.2.1 (by decide),
    T3.2.2.2.2.2.2 rfl rfl (by decide)⟩

/-! ### Claim C2 -/

/-- Example running worker whose stack is externally backed (created with
`xTaskCreatePinnedToCoreWithCaps`, so `createdWithCaps` is set). -/
def exControlExt : Control :=
  { exControl with
    config := { exControl.config with useExternalStack := true }
    createdWithCaps := true }

/-- Example pool state holding the external-stack worker. -/
def exStateExt : PoolState := { exState with controls := [exControlExt] }

/-- Counterexample to C2 as stated: `finalizeWorker` frees nothing and hands
nothing to any reclamation hook — finalizing a running worker whose stack is
externally backed completes the winning transition (the block reads back
`finalized`) while performing zero kernel deletions or frees; there is no
deferred-reclamation queue in the implementation at all, and the block owns
no stack buffers (the kernel's WithCaps task APIs own the stack). -/
theorem c2_finalize_frees_nothing :
    exControlExt.config.useExternalStack = true ∧
    exControlExt.createdWithCaps = true ∧
    (ESPWorker.finalizeWorker exStateExt 0 false 9).2.2 = [] ∧
    (ESPWorker.finalizeWorker exStateExt 0 true 9).2.2 = [] ∧
    ((lookupControl (ESPWorker.finalizeWorker exStateExt 0 false 9).1 0).map
      (fun c => c.finalized)) = some true := by
  exact ⟨rfl, rfl, rfl, rfl, rfl⟩

/-- Claim C2 (amended): externally-backed stack memory is owned and released
by the kernel's WithCaps task APIs, not by `finalizeWorker` (which never
performs a deletion or free). Each worker's task is deleted exactly once:
a cross-thread `destroy()` issues exactly one `vTaskDeleteWithCaps`-style
deletion carrying the block's `createdWithCaps` flag (freeing a caps-backed
stack immediately), natural completion issues exactly one self-deletion with
the same flag (whose stack release the kernel defers, since a task cannot
free the stack it runs on), and once the block is finalized any further
`destroy()` issues no deletion at all, so the stack is released exactly
once. -/
theorem c2_external_stack_freed_once (st : PoolState) (cid t ct selfTask now now2 : Nat)
    (c : Control) (d : Bool) (h : lookupControl st cid = some c) :
    (∀ (st2 : PoolState) (cid2 now3 : Nat) (d2 : Bool),
      (ESPWorker.finalizeWorker st2 cid2 d2 now3).2.2 = []) ∧
    (c.running = true → c.taskHandle = some t → c.finalized = false → ct ≠ t →
      (ESPWorker.destroyWorker st cid ct now).2.2.2.2 = [(t, c.createdWithCaps)]) ∧
    ((ESPWorker.taskTrampoline st cid selfTask now).2.2
      = [(selfTask, c.createdWithCaps)]) ∧
    (c.finalized = false →
      (ESPWorker.destroyWorker (ESPWorker.finalizeWorker st cid d now).1 cid ct
        now2).2.2.2.2 = []) := by
  refine ⟨?_, ?_, ?_, ?_⟩
  · intro st2 cid2 now3 d2
    cases hl : lookupControl st2 cid2 with
    | none => rw [finalizeWorker_none st2 cid2 d2 now3 hl]
    | some c2 =>
      cases hf : c2.finalized with
      | true => rw [finalizeWorker_already st2 cid2 d2 now3 c2 hl hf]
      | false => rw [finalizeWorker_winning st2 cid2 d2 now3 c2 hl hf]
  · intro hrun hth hfin hne
    unfold ESPWorker.destroyWorker
    rw [h]
    simp [hrun, hth, hne, finalizeWorker_winning st cid true now c h hfin]
  · unfold ESPWorker.taskTrampoline ESPWorker.runTask
    rw [h]
    cases hf : c.finalized with
    | true =>
      rw [finalizeWorker_already st cid false now c h hf]
      simp
    | false =>
      rw [finalizeWorker_winning st cid false now c h hf]
      simp
  · intro hfin
    have hself := finalizeWorker_lookup_self st cid d now c h hfin
    unfold ESPWorker.destroyWorker
    rw [hself]
    simp [finalizedControl]

/-- Witness for C2 (amended) at the concrete external-stack worker: the
cross-thread destroy issues exactly the one caps-carrying deletion, the
trampoline issues exactly the one caps-carrying self-deletion, and a destroy
after finalize issues none. -/
theorem c2_external_stack_freed_once_witness :
    (ESPWorker.finalizeWorker exStateExt 0 true 11).2.2 = [] ∧
    (ESPWorker.destroyWorker exStateExt 0 5 9).2.2.2.2 = [(7, true)] ∧
    (ESPWorker.taskTrampoline exStateExt 0 7 9).2.2 = [(7, true)] ∧
    (ESPWorker.destroyWorker (ESPWorker.finalizeWorker exStateExt 0 false 9).1 0 5
      11).2.2.2.2 = [] := by
  have T := c2_external_stack_freed_once exStateExt 0 7 5 7 9 11 exControlExt false rfl
  refine ⟨T.1 exStateExt 0 11 true, ?_, T.2.2.1, T.2.2.2 rfl⟩
  have := T.2.1 rfl rfl rfl (by decide)
  simpa using this

/-! ### Diagnostics fold lemmas (claim C8) -/

/-- The diagnostics pass counts exactly the running blocks. -/
theorem diagFold_runningJobs (pf : Platform) (now : Nat) :
    ∀ (l : List (Option Control)) (acc : ESPWorker.DiagAcc),
      (l.foldl (ESPWorker.diagStep pf now) acc).runningJobs
        = acc.runningJobs + ((l.filterMap id).filter (fun c => c.running)).length := by
  intro l
  induction l with
  | nil => intro acc; simp
  | cons oc l ih =>
    intro acc
    cases oc with
    | none =>
      simp only [List.foldl_cons]
      rw [show ESPWorker.diagStep pf now acc none = acc from rfl, ih]
      simp
    | some c =>
      simp only [List.foldl_cons]
      rw [ih]
      have hstep : (ESPWorker.diagStep pf now acc (some c)).runningJobs
          = acc.runningJobs + (if c.running then 1 else 0) := by
        simp only [ESPWorker.diagStep]
        by_cases hse : c.startTick ≤ (if c.running then now else c.endTick)
        · rw [if_pos hse]
          cases hr : c.running <;> cases hp : c.config.useExternalStack <;> simp [hr, hp]
        · rw [if_neg hse]
          cases hr : c.running <;> cases hp : c.config.useExternalStack <;> simp [hr, hp]
      rw [hstep]
      simp only [List.filterMap_cons, id_eq, List.filter_cons]
      cases hr : c.running <;> simp [hr] <;> omega

/-- The diagnostics pass counts exactly the externally-backed blocks. -/
theorem diagFold_psram (pf : Platform) (now : Nat) :
    ∀ (l : List (Option Control)) (acc : ESPWorker.DiagAcc),
      (l.foldl (ESPWorker.diagStep pf now) acc).psramStackJobs
        = acc.psramStackJobs
          + ((l.filterMap id).filter (fun c => c.config.useExternalStack)).length := by
  intro l
  induction l with
  | nil => intro acc; simp
  | cons oc l ih =>
    intro acc
    cases oc with
    | none =>
      simp only [List.foldl_cons]
      rw [show ESPWorker.diagStep pf now acc none = acc from rfl, ih]
      simp
    | some c =>
      simp only [List.foldl_cons]
      rw [ih]
      have hstep : (ESPWorker.diagStep pf now acc (some c)).psramStackJobs
          = acc.psramStackJobs + (if c.config.useExternalStack then 1 else 0) := by
        simp only [ESPWorker.diagStep]
        by_cases hse : c.startTick ≤ (if c.running then now else c.endTick)
        · rw [if_pos hse]
          cases hr : c.running <;> cases hp : c.config.useExternalStack <;> simp [hr, hp]
        · rw [if_neg hse]
          cases hr : c.running <;> cases hp : c.config.useExternalStack <;> simp [hr, hp]
      rw [hstep]
      simp only [List.filterMap_cons, id_eq, List.filter_cons]
      cases hp : c.config.useExternalStack <;> simp [hp] <;> omega

/-- The diagnostics pass has seen a runtime iff some block's runtime counts. -/
theorem diagFold_haveRuntime (pf : Platform) (now : Nat) :
    ∀ (l : List (Option Control)) (acc : ESPWorker.DiagAcc),
      (l.foldl (ESPWorker.diagStep pf now) acc).haveRuntime
        = (acc.haveRuntime
          || !((l.filterMap id).filterMap (countedRuntime pf.tickPeriodMs now)).isEmpty) := by
  intro l
  induction l with
  | nil => intro acc; simp
  | cons oc l ih =>
    intro acc
    cases oc with
    | none =>
      simp only [List.foldl_cons]
      rw [show ESPWorker.diagStep pf now acc none = acc from rfl, ih]
      simp
    | some c =>
      simp only [List.foldl_cons]
      rw [ih]
      have hstep : (ESPWorker.diagStep pf now acc (some c)).haveRuntime
          = (match countedRuntime pf.tickPeriodMs now c with
              | some _ => true
              | none => acc.haveRuntime) := by
        simp only [ESPWorker.diagStep, countedRuntime]
        by_cases hse : c.startTick ≤ (if c.running then now else c.endTick)
        · rw [if_pos hse, if_pos hse]
          all_goals cases hr : c.running <;> cases hp : c.config.useExternalStack <;>
            simp [hr, hp]
        · rw [if_neg hse, if_neg hse]
          all_goals cases hr : c.running <;> cases hp : c.config.useExternalStack <;>
            simp [hr, hp]
      rw [hstep]
      cases hcr : countedRuntime pf.tickPeriodMs now c with
      | none => simp [List.filterMap_cons, hcr]
      | some r => simp [List.filterMap_cons, hcr]

/-- The diagnostics pass computes the maximum counted runtime. -/
theorem diagFold_max (pf : Platform) (now : Nat) :
    ∀ (l : List (Option Control)) (acc : ESPWorker.DiagAcc),
      (l.foldl (ESPWorker.diagStep pf now) acc).maxRuntimeMs
        = max acc.maxRuntimeMs
            (((l.filterMap id).filterMap (countedRuntime pf.tickPeriodMs now)).foldr max 0) := by
  intro l
  induction l with
  | nil => intro acc; simp
  | cons oc l ih =>
    intro acc
    cases oc with
    | none =>
      simp only [List.foldl_cons]
      rw [show ESPWorker.diagStep pf now acc none = acc from rfl, ih]
      simp
    | some c =>
      simp only [List.foldl_cons]
      rw [ih]
      have hstep : (ESPWorker.diagStep pf now acc (some c)).maxRuntimeMs
          = (match countedRuntime pf.tickPeriodMs now c with
              | some r => max acc.maxRuntimeMs r
              | none => acc.maxRuntimeMs) := by
        simp only [ESPWorker.diagStep, countedRuntime]
        by_cases hse : c.startTick ≤ (if c.running then now else c.endTick)
        · rw [if_pos hse, if_pos hse]
          all_goals cases hr : c.running <;> cases hp : c.config.useExternalStack <;>
            simp [hr, hp]
        · rw [if_neg hse, if_neg hse]
          all_goals cases hr : c.running <;> cases hp : c.config.useExternalStack <;>
            simp [hr, hp]
      rw [hstep]
      cases hcr : countedRuntime pf.tickPeriodMs now c with
      | none => simp [List.filterMap_cons, hcr]
      | some r =>
        simp only [List.filterMap_cons, id_eq, hcr, List.foldr_cons]
        rw [Nat.max_assoc]

/-- The diagnostics pass sums the counted runtimes in 64-bit arithmetic. -/
theorem diagFold_sum (pf : Platform) (now : Nat) :
    ∀ (l : List (Option Control)) (acc : ESPWorker.DiagAcc),
      acc.runtimeSum < 2 ^ 64 →
      (l.foldl (ESPWorker.diagStep pf now) acc).runtimeSum
        = (acc.runtimeSum
          + ((l.filterMap id).filterMap (countedRuntime pf.tickPeriodMs now)).sum) % 2 ^ 64 := by
  intro l
  induction l with
  | nil =>
    intro acc hbound
    simp only [List.foldl_nil, List.filterMap_nil, List.sum_nil, Nat.add_zero]
    exact (Nat.mod_eq_of_lt hbound).symm
  | cons oc l ih =>
    intro acc hbound
    cases oc with
    | none =>
      simp only [List.foldl_cons]
      rw [show ESPWorker.diagStep pf now acc none = acc from rfl, ih acc hbound]
      simp
    | some c =>
      simp only [List.foldl_cons]
      have hstep : (ESPWorker.diagStep pf now acc (some c)).runtimeSum
          = (match countedRuntime pf.tickPeriodMs now c with
              | some r => (acc.runtimeSum + r) % 2 ^ 64
              | none => acc.runtimeSum) := by
        simp only [ESPWorker.diagStep, countedRuntime]
        by_cases hse : c.startTick ≤ (if c.running then now else c.endTick)
        · rw [if_pos hse, if_pos hse]
          all_goals cases hr : c.running <;> cases hp : c.config.useExternalStack <;>
            simp [hr, hp]
        · rw [if_neg hse, if_neg hse]
          all_goals cases hr : c.running <;> cases hp : c.config.useExternalStack <;>
            simp [hr, hp]
      have hbound2 : (ESPWorker.diagStep pf now acc (some c)).runtimeSum < 2 ^ 64 := by
        rw [hstep]
        cases hcr : countedRuntime pf.tickPeriodMs now c with
        | none => exact hbound
        | some r => exact Nat.mod_lt _ (by norm_num)
      rw [ih _ hbound2, hstep]
      cases hcr : countedRuntime pf.tickPeriodMs now c with
      | none => simp [List.filterMap_cons, hcr]
      | some r =>
        simp only [List.filterMap_cons, id_eq, hcr, List.sum_cons]
        rw [Nat.mod_add_mod]
        ring_nf

/-- Every counted runtime, being truncated to 32 bits, is below `2 ^ 32`. -/
theorem counted_runtime_lt (p now : Nat) (l : List Control) :
    ∀ x ∈ l.filterMap (countedRuntime p now), x < 2 ^ 32 := by
  intro x hx
  obtain ⟨c, -, hc⟩ := List.mem_filterMap.mp hx
  unfold countedRuntime at hc
  by_cases hse : c.startTick ≤ (if c.running then now else c.endTick)
  · rw [if_pos hse] at hc
    obtain rfl := Option.some.inj hc
    exact Nat.mod_lt _ (by norm_num)
  · rw [if_neg hse] at hc
    exact absurd hc (by simp)

/-! ### Claim C8 -/

/-- Claim C8: over a registry snapshot, the pool diagnostics equal exactly the
claimed aggregation — `totalJobs` the snapshot size, `runningJobs` the number
of running blocks, `waitingJobs` their difference, `psramStackJobs` the
external-stack blocks, per-block runtime `(now if running else endTick) −
startTick` converted to milliseconds and counted only when end ≥ start,
`averageRuntimeMs` the counted sum divided by `totalJobs` and `maxRuntimeMs`
the maximum counted runtime (snapshot sizes up to `2 ^ 32` cover every real
registry, keeping the source's 64-bit sum exact) — and the per-worker handle
diagnostics compute the runtime by the same per-block formula. -/
theorem c8_diag_aggregation (pf : Platform) (snapshot : List (Option Control)) (now : Nat)
    (hlen : snapshot.length ≤ 2 ^ 32) :
    ESPWorker.getDiag pf snapshot now = specPoolDiag pf snapshot now ∧
    (∀ (c : Control) (now2 : Nat),
      WorkerHandler.getDiag pf (some c) now2 =
        { config := c.config
          runtimeMs := (countedRuntime pf.tickPeriodMs now2 c).getD 0
          running := c.running
          destroyed := c.destroyed
          taskHandle := c.taskHandle }) := by
  constructor
  · cases hsnap : snapshot with
    | nil => simp [ESPWorker.getDiag, specPoolDiag]
    | cons a l =>
      subst hsnap
      have hcnt := counted_runtime_lt pf.tickPeriodMs now ((a :: l).filterMap id)
      have hclen : (((a :: l).filterMap id).filterMap
          (countedRuntime pf.tickPeriodMs now)).length ≤ (a :: l).length :=
        Nat.le_trans (List.length_filterMap_le _ _) (List.length_filterMap_le _ _)
      have hsum_le : (((a :: l).filterMap id).filterMap
          (countedRuntime pf.tickPeriodMs now)).sum ≤ (a :: l).length * (2 ^ 32 - 1) := by
        refine Nat.le_trans (sum_le_length_mul _ _ ?_) (Nat.mul_le_mul_right _ hclen)
        intro x hx
        have := hcnt x hx
        omega
      have hsum_lt : (((a :: l).filterMap id).filterMap
          (countedRuntime pf.tickPeriodMs now)).sum < 2 ^ 64 := by
        have h1 : (a :: l).length * (2 ^ 32 - 1) ≤ 2 ^ 32 * (2 ^ 32 - 1) :=
          Nat.mul_le_mul_right _ hlen
        have h2 : (2 ^ 32 : Nat) * (2 ^ 32 - 1) < 2 ^ 64 := by norm_num
        omega
      have hdiv_lt : (((a :: l).filterMap id).filterMap
          (countedRuntime pf.tickPeriodMs now)).sum / (a :: l).length < 2 ^ 32 := by
        have hpos : 0 < (a :: l).length := by simp
        have h1 : (((a :: l).filterMap id).filterMap
            (countedRuntime pf.tickPeriodMs now)).sum / (a :: l).length
            ≤ ((a :: l).length * (2 ^ 32 - 1)) / (a :: l).length :=
          Nat.div_le_div_right hsum_le
        rw [Nat.mul_div_cancel_left _ hpos] at h1
        omega
      unfold ESPWorker.getDiag specPoolDiag
      rw [if_neg (by simp)]
      rw [WorkerDiag.mk.injEq]
      refine ⟨rfl, ?_, ?_, ?_, ?_, ?_⟩
      · rw [diagFold_runningJobs]
        simp
      · rw [diagFold_runningJobs]
        simp only [Nat.zero_add]
        split
        · rfl
        · omega
      · rw [diagFold_psram]
        simp
      · rw [diagFold_haveRuntime, diagFold_sum pf now _ _ (by norm_num)]
        simp only [Nat.zero_add, Bool.false_or]
        cases hemp : (((a :: l).filterMap id).filterMap
            (countedRuntime pf.tickPeriodMs now)).isEmpty with
        | true =>
          have : (((a :: l).filterMap id).filterMap
              (countedRuntime pf.tickPeriodMs now)) = [] := by
            simpa [List.isEmpty_iff] using hemp
          simp [this]
        | false =>
          rw [Nat.mod_eq_of_lt hsum_lt]
          simp only [List.length_cons, Bool.not_false, Bool.and_true]
          rw [if_pos (by simp)]
          exact Nat.mod_eq_of_lt (by simpa using hdiv_lt)
      · rw [diagFold_max]
        simp
  · intro c now2
    unfold WorkerHandler.getDiag countedRuntime
    by_cases hse : c.startTick ≤ (if c.running then now2 else c.endTick)
    · simp [hse]
    · simp [hse]

/-- Witness for C8 at a concrete three-entry snapshot (one running block, one
finished external-stack block, one null pointer). -/
theorem c8_diag_aggregation_witness :
    ESPWorker.getDiag exPlatform [some exControl, some (finalizedControl exControlExt false 20),
        none] 5
      = specPoolDiag exPlatform [some exControl, some (finalizedControl exControlExt false 20),
        none] 5 ∧
    WorkerHandler.getDiag exPlatform (some exControl) 5 =
      { config := exControl.config
        runtimeMs := (countedRuntime exPlatform.tickPeriodMs 5 exControl).getD 0
        running := exControl.running
        destroyed := exControl.destroyed
        taskHandle := exControl.taskHandle } := by
  have T := c8_diag_aggregation exPlatform
    [some exControl, some (finalizedControl exControlExt false 20), none] 5 (by norm_num)
  exact ⟨T.1, T.2 exControl 5⟩
